import Mathlib

/-!
# Nuvoton MA35D1 PWM driver: register-level model

Shallow embedding of `drivers/pwm/nuvoton_pwm.c` and of `board_late_init` in
`board/nuvoton/ma35d1/ma35d1.c`.

* The memory-mapped register space is a function from addresses to contents.
  `readl` yields the 32-bit content of an address, `writel` stores the low
  32 bits of a value.
* C `int` values are mathematical integers; where the source adds two `int`s
  the sum is wrapped to 32-bit two's complement (`wrapInt`).
* C `unsigned int` values are naturals below `2 ^ 32`, C `unsigned long`
  values (64-bit on this AArch64 SoC) are naturals below `2 ^ 64`.
* A function returning `int` and writing registers becomes a function from a
  register state to a pair (status, new state).
-/

namespace Ma35d1

set_option linter.unusedVariables false

/-! ## Machine arithmetic -/

/-- Register space: address to content. -/
abbrev Regs := Nat → Nat

/-- Result of 32-bit signed arithmetic: the two's complement representative of
an integer in `[-2^31, 2^31)`. -/
def wrapInt (x : Int) : Int := (x + 2147483648) % 4294967296 - 2147483648

/-- Conversion of an `int` to `unsigned long` (64 bits). -/
def toULong (x : Int) : Nat := (x % 18446744073709551616).toNat

/-- Subtraction on `unsigned long`, modulo `2 ^ 64`. -/
def subULong (x y : Nat) : Nat :=
  (x % 18446744073709551616 + (18446744073709551616 - y % 18446744073709551616))
    % 18446744073709551616

/-- Left shift `x << n` of a 32-bit pattern by an `int` count. Counts outside
`0..31` are undefined in C; the model takes the count modulo 32 as the AArch64
shift instruction does. Every count the driver uses for a non-negative channel
id is in `0..10`. -/
def shl32 (x : Nat) (n : Int) : Nat := (x <<< (n % 32).toNat) % 4294967296

/-- Bitwise complement `~x` of a 32-bit pattern. -/
def not32 (x : Nat) : Nat := (x % 4294967296) ^^^ 4294967295

/-- The `readl` primitive: 32-bit content of an address. -/
def readl (s : Regs) (addr : Nat) : Nat := s addr % 4294967296

/-- The `writel` primitive: stores the low 32 bits of `val` at `addr`. -/
def writel (val addr : Nat) (s : Regs) : Regs :=
  fun a => if a = addr then val % 4294967296 else s a

/-! ## Register map (`nuvoton_pwm.c`, lines 25-69) -/

def REG_CLK_APBCLK1 : Nat := 0x40460210
def REG_PWM_CLKPSC01 : Nat := 0x14
def REG_PWM_CLKPSC23 : Nat := 0x18
def REG_PWM_CLKPSC45 : Nat := 0x1C
def REG_PWM_CNTEN : Nat := 0x20
def REG_PWM_PERIOD0 : Nat := 0x30
def REG_PWM_PERIOD1 : Nat := 0x34
def REG_PWM_PERIOD2 : Nat := 0x38
def REG_PWM_PERIOD3 : Nat := 0x3C
def REG_PWM_PERIOD4 : Nat := 0x40
def REG_PWM_PERIOD5 : Nat := 0x44
def REG_PWM_CMPDAT0 : Nat := 0x50
def REG_PWM_CMPDAT1 : Nat := 0x54
def REG_PWM_CMPDAT2 : Nat := 0x58
def REG_PWM_CMPDAT3 : Nat := 0x5C
def REG_PWM_CMPDAT4 : Nat := 0x60
def REG_PWM_CMPDAT5 : Nat := 0x64
def REG_PWM_WGCTL0 : Nat := 0xB0
def REG_PWM_WGCTL1 : Nat := 0xB4
def REG_PWM_POLCTL : Nat := 0xD4
def REG_PWM_POEN : Nat := 0xD8

def WGCTL_MASK : Nat := 0x3
def WGCTL_HIGH : Nat := 0x2
def WGCTL_LOW : Nat := 0x1

/-! ## Driver operations -/

/-- Base address of the register group of a channel id
(`pwm_id_to_regbase`, lines 72-82). -/
def pwm_id_to_regbase (pwm_id : Int) : Nat :=
  if 0 ≤ pwm_id ∧ pwm_id ≤ 5 then 0x40580000
  else if 6 ≤ pwm_id ∧ pwm_id ≤ 11 then 0x40590000
  else if 12 ≤ pwm_id ∧ pwm_id ≤ 17 then 0x405A0000
  else 0

/-- The sub-channel `pwm_id % 6` with C's truncating remainder. -/
def pwm_channel (pwm_id : Int) : Int := Int.tmod pwm_id 6

/-- Initialisation of a channel (`pwm_init`, lines 84-100): status and new
register state. -/
def pwm_init (pwm_id div invert : Int) (s : Regs) : Int × Regs :=
  let regbase := pwm_id_to_regbase pwm_id
  let channel := pwm_channel pwm_id
  let s1 := writel (readl s REG_CLK_APBCLK1 ||| 0x7000000) REG_CLK_APBCLK1 s
  let s2 :=
    if invert ≠ 0 then
      writel (readl s1 (regbase + REG_PWM_POLCTL) &&& not32 (shl32 1 channel))
        (regbase + REG_PWM_POLCTL) s1
    else
      writel (readl s1 (regbase + REG_PWM_POLCTL) ||| shl32 1 channel)
        (regbase + REG_PWM_POLCTL) s1
  (0, s2)

/-- Tick count of a nanosecond duration as `pwm_config` computes it (lines
114-121): `(ns + 10000) / 20000` in `int` arithmetic, stored in an
`unsigned long`, and replaced by 1 when it is 0. -/
def pwm_config_ticks (ns : Int) : Nat :=
  let t := toULong (Int.tdiv (wrapInt (ns + 10000)) 20000)
  if t = 0 then 1 else t

/-- Programming of prescale, period and compare (`pwm_config`, lines 102-154):
status and new register state. -/
def pwm_config (pwm_id duty_ns period_ns : Int) (s : Regs) : Int × Regs :=
  let regbase := pwm_id_to_regbase pwm_id
  let channel := pwm_channel pwm_id
  let prescale : Nat := 180000000 / 50000 - 1
  let period := pwm_config_ticks period_ns
  let duty := pwm_config_ticks duty_ns
  let s1 :=
    if channel < 2 then writel prescale (regbase + REG_PWM_CLKPSC01) s
    else if channel < 4 then writel prescale (regbase + REG_PWM_CLKPSC23) s
    else writel prescale (regbase + REG_PWM_CLKPSC45) s
  let s2 :=
    if channel = 0 then
      writel duty (regbase + REG_PWM_CMPDAT0)
        (writel (subULong period 1) (regbase + REG_PWM_PERIOD0) s1)
    else if channel = 1 then
      writel duty (regbase + REG_PWM_CMPDAT1)
        (writel (subULong period 1) (regbase + REG_PWM_PERIOD1) s1)
    else if channel = 2 then
      writel duty (regbase + REG_PWM_CMPDAT2)
        (writel (subULong period 1) (regbase + REG_PWM_PERIOD2) s1)
    else if channel = 3 then
      writel duty (regbase + REG_PWM_CMPDAT3)
        (writel (subULong period 1) (regbase + REG_PWM_PERIOD3) s1)
    else if channel = 4 then
      writel duty (regbase + REG_PWM_CMPDAT4)
        (writel (subULong period 1) (regbase + REG_PWM_PERIOD4) s1)
    else
      writel duty (regbase + REG_PWM_CMPDAT5)
        (writel (subULong period 1) (regbase + REG_PWM_PERIOD5) s1)
  (0, s2)

/-- Start of waveform generation and output (`pwm_enable`, lines 156-171):
status and new register state. -/
def pwm_enable (pwm_id : Int) (s : Regs) : Int × Regs :=
  let regbase := pwm_id_to_regbase pwm_id
  let channel := pwm_channel pwm_id
  let s1 :=
    writel ((readl s (regbase + REG_PWM_WGCTL0) &&& not32 (shl32 WGCTL_MASK (channel * 2)))
        ||| shl32 WGCTL_HIGH (channel * 2)) (regbase + REG_PWM_WGCTL0) s
  let s2 :=
    writel ((readl s1 (regbase + REG_PWM_WGCTL1) &&& not32 (shl32 WGCTL_MASK (channel * 2)))
        ||| shl32 WGCTL_LOW (channel * 2)) (regbase + REG_PWM_WGCTL1) s1
  let s3 :=
    writel (readl s2 (regbase + REG_PWM_POEN) ||| shl32 1 channel)
      (regbase + REG_PWM_POEN) s2
  let s4 :=
    writel (readl s3 (regbase + REG_PWM_CNTEN) ||| shl32 1 channel)
      (regbase + REG_PWM_CNTEN) s3
  (0, s4)

/-- Stop of output and counting (`pwm_disable`, lines 173-184): new register
state. -/
def pwm_disable (pwm_id : Int) (s : Regs) : Regs :=
  let regbase := pwm_id_to_regbase pwm_id
  let channel := pwm_channel pwm_id
  let s1 :=
    writel (readl s (regbase + REG_PWM_POEN) &&& not32 (shl32 1 channel))
      (regbase + REG_PWM_POEN) s
  let s2 :=
    writel (readl s1 (regbase + REG_PWM_CNTEN) &&& not32 (shl32 1 channel))
      (regbase + REG_PWM_CNTEN) s1
  s2

/-! ## Observations on a register value -/

/-- The 2-bit field at bits `[2c+1 : 2c]` of a register value. -/
def field2 (v c : Nat) : Nat := (v >>> (2 * c)) % 4

/-- Per-channel settings of channel `pwm_id` as a register state shows them:
content of its period register, content of its compare register, its polarity
bit, its output-enable bit, its counter-enable bit, and its 2-bit fields in
WGCTL0 and in WGCTL1. The clock register and the prescale register, which
channels share, are not part of it. -/
def channel_settings (pwm_id : Int) (s : Regs) : Nat × Nat × Bool × Bool × Bool × Nat × Nat :=
  let regbase := pwm_id_to_regbase pwm_id
  let c := (pwm_channel pwm_id).toNat
  (readl s (regbase + REG_PWM_PERIOD0 + 4 * c),
   readl s (regbase + REG_PWM_CMPDAT0 + 4 * c),
   (readl s (regbase + REG_PWM_POLCTL)).testBit c,
   (readl s (regbase + REG_PWM_POEN)).testBit c,
   (readl s (regbase + REG_PWM_CNTEN)).testBit c,
   field2 (readl s (regbase + REG_PWM_WGCTL0)) c,
   field2 (readl s (regbase + REG_PWM_WGCTL1)) c)

/-! ## Sequences of driver calls -/

/-- A call of one of the four driver operations with its arguments. -/
inductive PwmCall where
  | init (pwm_id div invert : Int)
  | config (pwm_id duty_ns period_ns : Int)
  | enable (pwm_id : Int)
  | disable (pwm_id : Int)

/-- The channel id a call is made with. -/
def PwmCall.id : PwmCall → Int
  | .init pwm_id _ _ => pwm_id
  | .config pwm_id _ _ => pwm_id
  | .enable pwm_id => pwm_id
  | .disable pwm_id => pwm_id

/-- Register state after a call (the status is dropped). -/
def PwmCall.exec : PwmCall → Regs → Regs
  | .init pwm_id div invert, s => (pwm_init pwm_id div invert s).2
  | .config pwm_id duty_ns period_ns, s => (pwm_config pwm_id duty_ns period_ns s).2
  | .enable pwm_id, s => (pwm_enable pwm_id s).2
  | .disable pwm_id, s => pwm_disable pwm_id s

/-- Register state after a sequence of calls, first call first. -/
def run_calls : List PwmCall → Regs → Regs
  | [], s => s
  | c :: cs, s => run_calls cs (c.exec s)

/-! ## Board initialisation (`ma35d1.c`, lines 15-39) -/

def REG_SYS_GPG_MFPL : Nat := 0x404600B0

/-- Late board initialisation (`board_late_init`, lines 17-39): status and new
register state. The argument tells whether the build option
`CONFIG_PWM_NUVOTON` is defined, which decides whether the PWM block is
compiled in. -/
def board_late_init (CONFIG_PWM_NUVOTON : Bool) (s : Regs) : Int × Regs :=
  if CONFIG_PWM_NUVOTON then
    let s1 :=
      writel ((readl s REG_SYS_GPG_MFPL &&& not32 0xF0000) ||| 0x10000) REG_SYS_GPG_MFPL s
    let s2 := (pwm_init 6 0 0 s1).2
    let s3 := (pwm_config 6 500000000 1000000000 s2).2
    let s4 := (pwm_enable 6 s3).2
    (0, s4)
  else
    (0, s)

/-! ## Auxiliary facts on registers and bit patterns -/

theorem readl_writel_same (v a : Nat) (s : Regs) :
    readl (writel v a s) a = v % 4294967296 := by
  simp [readl, writel]

theorem readl_writel_ne (v a b : Nat) (s : Regs) (h : a ≠ b) :
    readl (writel v b s) a = readl s a := by
  simp [readl, writel, h]

theorem writel_ne (v a b : Nat) (s : Regs) (h : a ≠ b) :
    writel v b s a = s a := by
  simp [writel, h]

theorem testBit_u32 (x i : Nat) :
    (x % 4294967296).testBit i = (decide (i < 32) && x.testBit i) :=
  Nat.testBit_mod_two_pow x 32 i

theorem testBit_readl (s : Regs) (a i : Nat) :
    (readl s a).testBit i = (decide (i < 32) && (s a).testBit i) :=
  testBit_u32 (s a) i

theorem testBit_not32 (x i : Nat) :
    (not32 x).testBit i = (decide (i < 32) && !x.testBit i) := by
  have h : (4294967295 : Nat).testBit i = decide (i < 32) :=
    Nat.testBit_two_pow_sub_one 32 i
  unfold not32
  rw [Nat.testBit_xor, testBit_u32, h]
  by_cases hi : i < 32 <;> simp [hi]

theorem shl32_natCast (x c : Nat) (hc : c < 32) :
    shl32 x (c : Int) = (x <<< c) % 4294967296 := by
  have h : ((c : Int) % 32).toNat = c := by omega
  simp [shl32, h]

theorem testBit_shl32 (x c i : Nat) (hc : c < 32) :
    (shl32 x (c : Int)).testBit i
      = (decide (i < 32) && (decide (c ≤ i) && x.testBit (i - c))) := by
  rw [shl32_natCast x c hc, testBit_u32, Nat.testBit_shiftLeft]

theorem testBit_one (j : Nat) : Nat.testBit 1 j = decide (j = 0) := by
  have h := @Nat.testBit_two_pow 0 j
  simpa [eq_comm] using h

theorem testBit_two (j : Nat) : Nat.testBit 2 j = decide (j = 1) := by
  have h := @Nat.testBit_two_pow 1 j
  simpa [eq_comm] using h

theorem testBit_three (j : Nat) : Nat.testBit 3 j = decide (j < 2) :=
  Nat.testBit_two_pow_sub_one 2 j

/-- A 2-bit field in terms of its two bits. -/
theorem field2_eq (v c : Nat) :
    field2 v c = (v.testBit (2 * c)).toNat + 2 * (v.testBit (2 * c + 1)).toNat := by
  unfold field2
  rw [Nat.toNat_testBit, Nat.toNat_testBit, Nat.shiftRight_eq_div_pow, pow_succ,
    ← Nat.div_div_eq_div_mul]
  omega


/-- For an id in 0..17 the sub-channel is a natural number below 6, equal to `id mod 6`. -/
theorem pwm_channel_valid (pwm_id : Int) (h0 : 0 ≤ pwm_id) (h1 : pwm_id ≤ 17) :
    ∃ c : Nat, c < 6 ∧ pwm_channel pwm_id = (c : Int) ∧ ((c : Int) = pwm_id % 6) := by
  refine ⟨(pwm_channel pwm_id).toNat, ?_, ?_, ?_⟩ <;>
    (interval_cases pwm_id <;> decide)

/-- For an id in 0..17 the group base is one of the three EPWM bases. -/
theorem pwm_id_to_regbase_cases (pwm_id : Int) (h0 : 0 ≤ pwm_id) (h1 : pwm_id ≤ 17) :
    pwm_id_to_regbase pwm_id = 0x40580000 ∨ pwm_id_to_regbase pwm_id = 0x40590000 ∨
      pwm_id_to_regbase pwm_id = 0x405A0000 := by
  unfold pwm_id_to_regbase
  split_ifs <;> omega

theorem testBit_shl32_one (c i : Nat) (hc : c < 32) :
    (shl32 1 (c : Int)).testBit i = decide (i = c) := by
  rw [testBit_shl32 1 c i hc, testBit_one]
  by_cases h1 : c ≤ i <;> by_cases h2 : i - c = 0 <;> by_cases h3 : i < 32 <;>
    simp [h1, h2, h3] <;> omega

theorem testBit_shl32_mask (c i : Nat) (hc : c < 6) :
    (shl32 WGCTL_MASK ((c : Int) * 2)).testBit i = decide (2 * c ≤ i ∧ i < 2 * c + 2) := by
  have e : (c : Int) * 2 = ((c * 2 : Nat) : Int) := by push_cast; ring
  rw [e, testBit_shl32 _ _ i (by omega), WGCTL_MASK, testBit_three]
  by_cases h1 : c * 2 ≤ i <;> by_cases h2 : i - c * 2 < 2 <;> by_cases h3 : i < 32 <;>
    simp [h1, h2, h3] <;> omega

theorem testBit_shl32_high (c i : Nat) (hc : c < 6) :
    (shl32 WGCTL_HIGH ((c : Int) * 2)).testBit i = decide (i = 2 * c + 1) := by
  have e : (c : Int) * 2 = ((c * 2 : Nat) : Int) := by push_cast; ring
  rw [e, testBit_shl32 _ _ i (by omega), WGCTL_HIGH, testBit_two]
  by_cases h1 : c * 2 ≤ i <;> by_cases h2 : i - c * 2 = 1 <;> by_cases h3 : i < 32 <;>
    simp [h1, h2, h3] <;> omega

theorem testBit_shl32_low (c i : Nat) (hc : c < 6) :
    (shl32 WGCTL_LOW ((c : Int) * 2)).testBit i = decide (i = 2 * c) := by
  have e : (c : Int) * 2 = ((c * 2 : Nat) : Int) := by push_cast; ring
  rw [e, testBit_shl32 _ _ i (by omega), WGCTL_LOW, testBit_one]
  by_cases h1 : c * 2 ≤ i <;> by_cases h2 : i - c * 2 = 0 <;> by_cases h3 : i < 32 <;>
    simp [h1, h2, h3] <;> omega



/-- Content of WGCTL0 after `pwm_enable`. -/
theorem pwm_enable_wgctl0 (pwm_id : Int) (s : Regs) :
    (pwm_enable pwm_id s).2 (pwm_id_to_regbase pwm_id + 0xB0)
      = ((readl s (pwm_id_to_regbase pwm_id + 0xB0)
            &&& not32 (shl32 WGCTL_MASK (pwm_channel pwm_id * 2)))
          ||| shl32 WGCTL_HIGH (pwm_channel pwm_id * 2)) % 4294967296 := by
  simp [pwm_enable, writel, readl, REG_PWM_WGCTL0, REG_PWM_WGCTL1, REG_PWM_POEN, REG_PWM_CNTEN]

/-- Content of WGCTL1 after `pwm_enable`. -/
theorem pwm_enable_wgctl1 (pwm_id : Int) (s : Regs) :
    (pwm_enable pwm_id s).2 (pwm_id_to_regbase pwm_id + 0xB4)
      = ((readl s (pwm_id_to_regbase pwm_id + 0xB4)
            &&& not32 (shl32 WGCTL_MASK (pwm_channel pwm_id * 2)))
          ||| shl32 WGCTL_LOW (pwm_channel pwm_id * 2)) % 4294967296 := by
  simp [pwm_enable, writel, readl, REG_PWM_WGCTL0, REG_PWM_WGCTL1, REG_PWM_POEN, REG_PWM_CNTEN]

/-- Content of POEN after `pwm_enable`. -/
theorem pwm_enable_poen (pwm_id : Int) (s : Regs) :
    (pwm_enable pwm_id s).2 (pwm_id_to_regbase pwm_id + 0xD8)
      = (readl s (pwm_id_to_regbase pwm_id + 0xD8) ||| shl32 1 (pwm_channel pwm_id))
          % 4294967296 := by
  simp [pwm_enable, writel, readl, REG_PWM_WGCTL0, REG_PWM_WGCTL1, REG_PWM_POEN, REG_PWM_CNTEN]

/-- Content of CNTEN after `pwm_enable`. -/
theorem pwm_enable_cnten (pwm_id : Int) (s : Regs) :
    (pwm_enable pwm_id s).2 (pwm_id_to_regbase pwm_id + 0x20)
      = (readl s (pwm_id_to_regbase pwm_id + 0x20) ||| shl32 1 (pwm_channel pwm_id))
          % 4294967296 := by
  simp [pwm_enable, writel, readl, REG_PWM_WGCTL0, REG_PWM_WGCTL1, REG_PWM_POEN, REG_PWM_CNTEN]

/-- Addresses `pwm_enable` does not write keep their content. -/
theorem pwm_enable_frame (pwm_id : Int) (s : Regs) (a : Nat)
    (h0 : a ≠ pwm_id_to_regbase pwm_id + 0xB0) (h1 : a ≠ pwm_id_to_regbase pwm_id + 0xB4)
    (h2 : a ≠ pwm_id_to_regbase pwm_id + 0xD8) (h3 : a ≠ pwm_id_to_regbase pwm_id + 0x20) :
    (pwm_enable pwm_id s).2 a = s a := by
  simp only [pwm_enable, REG_PWM_WGCTL0, REG_PWM_WGCTL1, REG_PWM_POEN, REG_PWM_CNTEN]
  rw [writel_ne _ _ _ _ h3, writel_ne _ _ _ _ h2, writel_ne _ _ _ _ h1, writel_ne _ _ _ _ h0]


/-- The polarity register of a group is never the clock register. -/
theorem regbase_polctl_ne_clk (pwm_id : Int) :
    pwm_id_to_regbase pwm_id + 0xD4 ≠ 0x40460210 := by
  unfold pwm_id_to_regbase
  split_ifs <;> omega

/-- Content of POEN after `pwm_disable`. -/
theorem pwm_disable_poen (pwm_id : Int) (s : Regs) :
    pwm_disable pwm_id s (pwm_id_to_regbase pwm_id + 0xD8)
      = (readl s (pwm_id_to_regbase pwm_id + 0xD8) &&& not32 (shl32 1 (pwm_channel pwm_id)))
          % 4294967296 := by
  simp [pwm_disable, writel, readl, REG_PWM_POEN, REG_PWM_CNTEN]

/-- Content of CNTEN after `pwm_disable`. -/
theorem pwm_disable_cnten (pwm_id : Int) (s : Regs) :
    pwm_disable pwm_id s (pwm_id_to_regbase pwm_id + 0x20)
      = (readl s (pwm_id_to_regbase pwm_id + 0x20) &&& not32 (shl32 1 (pwm_channel pwm_id)))
          % 4294967296 := by
  simp [pwm_disable, writel, readl, REG_PWM_POEN, REG_PWM_CNTEN]

/-- Addresses `pwm_disable` does not write keep their content. -/
theorem pwm_disable_frame (pwm_id : Int) (s : Regs) (a : Nat)
    (h2 : a ≠ pwm_id_to_regbase pwm_id + 0xD8) (h3 : a ≠ pwm_id_to_regbase pwm_id + 0x20) :
    pwm_disable pwm_id s a = s a := by
  simp only [pwm_disable, REG_PWM_POEN, REG_PWM_CNTEN]
  rw [writel_ne _ _ _ _ h3, writel_ne _ _ _ _ h2]

/-- Content of the clock register after `pwm_init`. -/
theorem pwm_init_clk (pwm_id div invert : Int) (s : Regs) :
    (pwm_init pwm_id div invert s).2 0x40460210
      = (readl s 0x40460210 ||| 0x7000000) % 4294967296 := by
  have h := regbase_polctl_ne_clk pwm_id
  simp only [pwm_init, REG_PWM_POLCTL, REG_CLK_APBCLK1]
  split_ifs <;> simp [writel, Ne.symm h]

/-- Content of POLCTL after `pwm_init`. -/
theorem pwm_init_polctl (pwm_id div invert : Int) (s : Regs) :
    (pwm_init pwm_id div invert s).2 (pwm_id_to_regbase pwm_id + 0xD4)
      = if invert ≠ 0 then
          (readl s (pwm_id_to_regbase pwm_id + 0xD4) &&& not32 (shl32 1 (pwm_channel pwm_id)))
            % 4294967296
        else
          (readl s (pwm_id_to_regbase pwm_id + 0xD4) ||| shl32 1 (pwm_channel pwm_id))
            % 4294967296 := by
  have h := regbase_polctl_ne_clk pwm_id
  simp only [pwm_init, REG_PWM_POLCTL, REG_CLK_APBCLK1]
  split_ifs <;> simp [writel, readl, h]

/-- Addresses `pwm_init` does not write keep their content. -/
theorem pwm_init_frame (pwm_id div invert : Int) (s : Regs) (a : Nat)
    (h0 : a ≠ 0x40460210) (h1 : a ≠ pwm_id_to_regbase pwm_id + 0xD4) :
    (pwm_init pwm_id div invert s).2 a = s a := by
  simp only [pwm_init, REG_PWM_POLCTL, REG_CLK_APBCLK1]
  split_ifs <;> rw [writel_ne _ _ _ _ h1, writel_ne _ _ _ _ h0]


/-- Contents of the period, compare and prescale registers of a channel in 0..17 after
`pwm_config`, in terms of the tick counts. -/
theorem pwm_config_regs (pwm_id duty_ns period_ns : Int) (s : Regs)
    (h0 : 0 ≤ pwm_id) (h1 : pwm_id ≤ 17) :
    (pwm_config pwm_id duty_ns period_ns s).2
        (pwm_id_to_regbase pwm_id + 0x30 + 4 * (pwm_id % 6).toNat)
        = subULong (pwm_config_ticks period_ns) 1 % 4294967296 ∧
      (pwm_config pwm_id duty_ns period_ns s).2
        (pwm_id_to_regbase pwm_id + 0x50 + 4 * (pwm_id % 6).toNat)
        = pwm_config_ticks duty_ns % 4294967296 ∧
      (pwm_config pwm_id duty_ns period_ns s).2
        (pwm_id_to_regbase pwm_id + 0x14 + 4 * ((pwm_id % 6).toNat / 2)) = 3599 := by
  obtain ⟨c, hc, hch, hmod⟩ := pwm_channel_valid pwm_id h0 h1
  rw [← hmod, Int.toNat_ofNat]
  generalize hB : pwm_id_to_regbase pwm_id = B
  interval_cases c <;>
    simp [pwm_config, hch, hB, writel, REG_PWM_CLKPSC01, REG_PWM_CLKPSC23, REG_PWM_CLKPSC45,
      REG_PWM_PERIOD0, REG_PWM_PERIOD1, REG_PWM_PERIOD2, REG_PWM_PERIOD3, REG_PWM_PERIOD4,
      REG_PWM_PERIOD5, REG_PWM_CMPDAT0, REG_PWM_CMPDAT1, REG_PWM_CMPDAT2, REG_PWM_CMPDAT3,
      REG_PWM_CMPDAT4, REG_PWM_CMPDAT5, Nat.add_assoc]

theorem wrapInt_bounds (x : Int) : -2147483648 ≤ wrapInt x ∧ wrapInt x ≤ 2147483647 := by
  unfold wrapInt
  omega

theorem wrapInt_of_range (x : Int) (h0 : -2147483648 ≤ x) (h1 : x ≤ 2147483647) :
    wrapInt x = x := by
  unfold wrapInt
  omega

/-- Where `ns + 10000` does not overflow an `int`, the tick count is the rounded quotient
clamped to at least 1. -/
theorem pwm_config_ticks_in_range (ns : Int) (h0 : 0 ≤ ns) (h1 : ns ≤ 2147483647 - 10000) :
    (pwm_config_ticks ns : Int) = max 1 ((ns + 10000) / 20000) := by
  unfold pwm_config_ticks toULong
  rw [wrapInt_of_range _ (by omega) (by omega), Int.tdiv_eq_ediv (by omega) (by omega)]
  have hq0 : 0 ≤ (ns + 10000) / 20000 := by omega
  have hq1 : (ns + 10000) / 20000 ≤ 107374 := by omega
  generalize (ns + 10000) / 20000 = q at hq0 hq1
  simp only []
  split_ifs with h <;> omega

/-- The low 32 bits of a tick count are never 0, whatever the `int` input. -/
theorem pwm_config_ticks_low_word (ns : Int) : pwm_config_ticks ns % 4294967296 ≠ 0 := by
  unfold pwm_config_ticks toULong
  obtain ⟨hw0, hw1⟩ := wrapInt_bounds (ns + 10000)
  generalize wrapInt (ns + 10000) = w at hw0 hw1
  have hq : -107374 ≤ Int.tdiv w 20000 ∧ Int.tdiv w 20000 ≤ 107374 := by
    rcases le_or_lt 0 w with hw | hw
    · rw [Int.tdiv_eq_ediv hw (by omega)]; omega
    · have e : w = -(-w) := by omega
      rw [e, Int.neg_tdiv, Int.tdiv_eq_ediv (by omega) (by omega)]; omega
  generalize Int.tdiv w 20000 = q at hq
  simp only []
  split_ifs with h <;> omega


/-- Setting bits of a register twice is setting them once. -/
theorem setbit_idem (x m : Nat) :
    ((x ||| m) % 4294967296 % 4294967296 ||| m) % 4294967296 = (x ||| m) % 4294967296 := by
  apply Nat.eq_of_testBit_eq
  intro i
  simp only [testBit_u32, Nat.testBit_or]
  generalize decide (i < 32) = d
  generalize x.testBit i = a
  generalize m.testBit i = b
  cases d <;> cases a <;> cases b <;> rfl

/-- Clearing bits of a register twice is clearing them once. -/
theorem clrbit_idem (x m : Nat) :
    ((x &&& not32 m) % 4294967296 % 4294967296 &&& not32 m) % 4294967296
      = (x &&& not32 m) % 4294967296 := by
  apply Nat.eq_of_testBit_eq
  intro i
  simp only [testBit_u32, Nat.testBit_and, testBit_not32]
  generalize decide (i < 32) = d
  generalize x.testBit i = a
  generalize m.testBit i = b
  cases d <;> cases a <;> cases b <;> rfl

/-- Replacing a field of a register twice is replacing it once. -/
theorem setfield_idem (x k v : Nat) :
    (((x &&& not32 k ||| v) % 4294967296 % 4294967296 &&& not32 k) ||| v) % 4294967296
      = (x &&& not32 k ||| v) % 4294967296 := by
  apply Nat.eq_of_testBit_eq
  intro i
  simp only [testBit_u32, Nat.testBit_or, Nat.testBit_and, testBit_not32]
  generalize decide (i < 32) = d
  generalize x.testBit i = a
  generalize k.testBit i = b
  generalize v.testBit i = e
  cases d <;> cases a <;> cases b <;> cases e <;> rfl

/-! ## Claims -/

/-- C1: for a channel id in 0..17 with sub-channel `c = id mod 6` and group base
`B`, and duty and period in `[0, 2^31 - 1 - 10000]`, after `pwm_config` the
period register `B + 0x30 + 4c` holds `max 1 ((period_ns + 10000) / 20000) - 1`,
the compare register `B + 0x50 + 4c` holds `max 1 ((duty_ns + 10000) / 20000)`
and the prescale register `B + 0x14 + 4 (c / 2)` holds
`180000000 / 50000 - 1 = 3599`. -/
theorem pwm_config_programs_registers (pwm_id duty_ns period_ns : Int) (s : Regs)
    (hid0 : 0 ≤ pwm_id) (hid1 : pwm_id ≤ 17)
    (hd0 : 0 ≤ duty_ns) (hd1 : duty_ns ≤ 2147483647 - 10000)
    (hp0 : 0 ≤ period_ns) (hp1 : period_ns ≤ 2147483647 - 10000) :
    (readl (pwm_config pwm_id duty_ns period_ns s).2
        (pwm_id_to_regbase pwm_id + 0x30 + 4 * (pwm_id % 6).toNat) : Int)
        = max 1 ((period_ns + 10000) / 20000) - 1 ∧
      (readl (pwm_config pwm_id duty_ns period_ns s).2
        (pwm_id_to_regbase pwm_id + 0x50 + 4 * (pwm_id % 6).toNat) : Int)
        = max 1 ((duty_ns + 10000) / 20000) ∧
      readl (pwm_config pwm_id duty_ns period_ns s).2
        (pwm_id_to_regbase pwm_id + 0x14 + 4 * ((pwm_id % 6).toNat / 2))
        = 180000000 / 50000 - 1 ∧
      (180000000 / 50000 - 1 : Nat) = 3599 := by
  obtain ⟨hP, hD, hS⟩ := pwm_config_regs pwm_id duty_ns period_ns s hid0 hid1
  have tp := pwm_config_ticks_in_range period_ns hp0 hp1
  have td := pwm_config_ticks_in_range duty_ns hd0 hd1
  have qp : (period_ns + 10000) / 20000 ≤ 107374 := by omega
  have qd : (duty_ns + 10000) / 20000 ≤ 107374 := by omega
  refine ⟨?_, ?_, ?_, by norm_num⟩
  · rw [readl, hP]
    unfold subULong
    omega
  · rw [readl, hD]
    omega
  · rw [readl, hS]

/-- C1, at the documented example: `pwm_config(6, 500000000, 1000000000)` leaves
49999 at 0x40590030, 25000 at 0x40590050 and 3599 at 0x40590014. -/
theorem pwm_config_programs_registers_witness :
    readl (pwm_config 6 500000000 1000000000 (fun _ => 0)).2 0x40590030 = 49999 ∧
      readl (pwm_config 6 500000000 1000000000 (fun _ => 0)).2 0x40590050 = 25000 ∧
      readl (pwm_config 6 500000000 1000000000 (fun _ => 0)).2 0x40590014 = 3599 := by
  have h := pwm_config_programs_registers 6 500000000 1000000000 (fun _ => 0)
    (by decide) (by decide) (by decide) (by decide) (by decide) (by decide)
  have hB : pwm_id_to_regbase 6 = 0x40590000 := by decide
  have hc : ((6 : Int) % 6).toNat = 0 := by decide
  rw [hB, hc] at h
  obtain ⟨h1, h2, h3, -⟩ := h
  refine ⟨?_, ?_, ?_⟩
  · have e : max (1 : Int) ((1000000000 + 10000) / 20000) - 1 = 49999 := by decide
    rw [e] at h1
    exact_mod_cast h1
  · have e : max (1 : Int) ((500000000 + 10000) / 20000) = 25000 := by decide
    rw [e] at h2
    exact_mod_cast h2
  · exact h3

/-- C2, at the failing input: for `period_ns = 2147483647` the `int` sum
`period_ns + 10000` wraps to `-2147473649`, the quotient is `-107373`, the tick
count stored in the `unsigned long` is `2^64 - 107373` and the period register
receives `2^32 - 107374`, whereas `max 1 ((period_ns + 10000) / 20000)` in exact
arithmetic is 107374. -/
theorem pwm_config_ticks_overflow :
    wrapInt (2147483647 + 10000) = -2147473649 ∧
      pwm_config_ticks 2147483647 = 18446744073709444243 ∧
      max (1 : Int) ((2147483647 + 10000) / 20000) = 107374 ∧
      (pwm_config_ticks 2147483647 : Int) ≠ max 1 ((2147483647 + 10000) / 20000) ∧
      readl (pwm_config 0 0 2147483647 (fun _ => 0)).2 0x40580030 = 4294859922 := by
  refine ⟨by decide, by decide, by decide, by decide, by decide⟩

/-- C3: for a channel id in 0..17 the group base is 0x40580000 for ids 0..5,
0x40590000 for ids 6..11 and 0x405A0000 for ids 12..17, hence one of three
known non-zero bases, and the sub-channel `pwm_id % 6` lies in 0..5 (and is the
mathematical `id mod 6`). -/
theorem pwm_id_to_regbase_valid (pwm_id : Int) (h0 : 0 ≤ pwm_id) (h1 : pwm_id ≤ 17) :
    (pwm_id ≤ 5 → pwm_id_to_regbase pwm_id = 0x40580000) ∧
      (6 ≤ pwm_id → pwm_id ≤ 11 → pwm_id_to_regbase pwm_id = 0x40590000) ∧
      (12 ≤ pwm_id → pwm_id_to_regbase pwm_id = 0x405A0000) ∧
      (pwm_id_to_regbase pwm_id = 0x40580000 ∨ pwm_id_to_regbase pwm_id = 0x40590000 ∨
        pwm_id_to_regbase pwm_id = 0x405A0000) ∧
      pwm_id_to_regbase pwm_id ≠ 0 ∧
      0 ≤ pwm_channel pwm_id ∧ pwm_channel pwm_id ≤ 5 ∧ pwm_channel pwm_id = pwm_id % 6 := by
  obtain ⟨c, hc, hch, hmod⟩ := pwm_channel_valid pwm_id h0 h1
  have hB := pwm_id_to_regbase_cases pwm_id h0 h1
  refine ⟨?_, ?_, ?_, hB, by omega, by omega, by omega, by omega⟩
  · intro h
    simp [pwm_id_to_regbase, h0, h]
  · intro h6 h11
    have : ¬ (pwm_id ≤ 5) := by omega
    simp [pwm_id_to_regbase, h6, h11, this]
  · intro h12
    have h5 : ¬ (pwm_id ≤ 5) := by omega
    have h11 : ¬ (pwm_id ≤ 11) := by omega
    simp [pwm_id_to_regbase, h12, h1, h5, h11]

/-- C3, at the documented example: id 13 resolves to base 0x405A0000 and
sub-channel 1. -/
theorem pwm_id_to_regbase_valid_witness :
    pwm_id_to_regbase 13 = 0x405A0000 ∧ pwm_channel 13 = 1 := by
  obtain ⟨-, -, h, -, -, -, -, hc⟩ := pwm_id_to_regbase_valid 13 (by decide) (by decide)
  exact ⟨h (by decide), by rw [hc]; decide⟩

/-- C4, as stated, fails: after `pwm_enable(0)` on an all-zero register state
the field at bits `[1 : 0]` of WGCTL0 (0x405800B0) is 10 and that of WGCTL1
(0x405800B4) is 01, so it is not the case that the first is 01 and the second
is 10. -/
theorem wgctl_encoding_refuted :
    field2 (readl (pwm_enable 0 (fun _ => 0)).2 (0x40580000 + 0xB0)) 0 = 2 ∧
      field2 (readl (pwm_enable 0 (fun _ => 0)).2 (0x40580000 + 0xB4)) 0 = 1 ∧
      ¬ (field2 (readl (pwm_enable 0 (fun _ => 0)).2 (0x40580000 + 0xB0)) 0 = 1 ∧
        field2 (readl (pwm_enable 0 (fun _ => 0)).2 (0x40580000 + 0xB4)) 0 = 2) := by
  decide

/-- C4, amended: for a channel id in 0..17 with sub-channel `c` and group base
`B`, after `pwm_enable` the 2-bit field at bits `[2c+1 : 2c]` of WGCTL0
(`B + 0xB0`) is 10 (`WGCTL_HIGH`) and the same field of WGCTL1 (`B + 0xB4`) is
01 (`WGCTL_LOW`). -/
theorem pwm_enable_waveform_fields (pwm_id : Int) (s : Regs) (h0 : 0 ≤ pwm_id) (h1 : pwm_id ≤ 17) :
    field2 (readl (pwm_enable pwm_id s).2 (pwm_id_to_regbase pwm_id + 0xB0))
        (pwm_id % 6).toNat = 2 ∧
      field2 (readl (pwm_enable pwm_id s).2 (pwm_id_to_regbase pwm_id + 0xB4))
        (pwm_id % 6).toNat = 1 := by
  obtain ⟨c, hc, hch, hmod⟩ := pwm_channel_valid pwm_id h0 h1
  rw [← hmod, Int.toNat_ofNat]
  have hc1 : 2 * c < 32 := by omega
  have hc2 : 2 * c + 1 < 32 := by omega
  constructor
  · rw [readl, pwm_enable_wgctl0, hch, field2_eq]
    simp [testBit_u32, Nat.testBit_or, Nat.testBit_and, testBit_not32, testBit_shl32_mask _ _ hc,
      testBit_shl32_high _ _ hc, hc1, hc2]
  · rw [readl, pwm_enable_wgctl1, hch, field2_eq]
    simp [testBit_u32, Nat.testBit_or, Nat.testBit_and, testBit_not32, testBit_shl32_mask _ _ hc,
      testBit_shl32_low _ _ hc, hc1, hc2]

/-- C4, amended, at id 13 (base 0x405A0000, sub-channel 1) on an all-ones
register state. -/
theorem pwm_enable_waveform_fields_witness :
    field2 (readl (pwm_enable 13 (fun _ => 4294967295)).2 (0x405A0000 + 0xB0)) 1 = 2 ∧
      field2 (readl (pwm_enable 13 (fun _ => 4294967295)).2 (0x405A0000 + 0xB4)) 1 = 1 :=
  pwm_enable_waveform_fields 13 (fun _ => 4294967295) (by decide) (by decide)


/-- C5: for a channel id in 0..17 with sub-channel `c`, any duty and period and
any initial register state, after `pwm_config; pwm_enable; pwm_disable` bit `c`
of POEN (`B + 0xD8`) and bit `c` of CNTEN (`B + 0x20`) are 0, while WGCTL0
(`B + 0xB0`) and WGCTL1 (`B + 0xB4`) hold exactly the values they held right
after `pwm_enable`. -/
theorem pwm_config_enable_disable (pwm_id duty_ns period_ns : Int) (s : Regs)
    (h0 : 0 ≤ pwm_id) (h1 : pwm_id ≤ 17) :
    (readl (pwm_disable pwm_id (pwm_enable pwm_id (pwm_config pwm_id duty_ns period_ns s).2).2)
        (pwm_id_to_regbase pwm_id + 0xD8)).testBit (pwm_id % 6).toNat = false ∧
      (readl (pwm_disable pwm_id (pwm_enable pwm_id (pwm_config pwm_id duty_ns period_ns s).2).2)
        (pwm_id_to_regbase pwm_id + 0x20)).testBit (pwm_id % 6).toNat = false ∧
      pwm_disable pwm_id (pwm_enable pwm_id (pwm_config pwm_id duty_ns period_ns s).2).2
          (pwm_id_to_regbase pwm_id + 0xB0)
        = (pwm_enable pwm_id (pwm_config pwm_id duty_ns period_ns s).2).2
          (pwm_id_to_regbase pwm_id + 0xB0) ∧
      pwm_disable pwm_id (pwm_enable pwm_id (pwm_config pwm_id duty_ns period_ns s).2).2
          (pwm_id_to_regbase pwm_id + 0xB4)
        = (pwm_enable pwm_id (pwm_config pwm_id duty_ns period_ns s).2).2
          (pwm_id_to_regbase pwm_id + 0xB4) := by
  obtain ⟨c, hc, hch, hmod⟩ := pwm_channel_valid pwm_id h0 h1
  rw [← hmod, Int.toNat_ofNat]
  have hc32 : c < 32 := by omega
  generalize (pwm_enable pwm_id (pwm_config pwm_id duty_ns period_ns s).2).2 = sE
  refine ⟨?_, ?_, ?_, ?_⟩
  · rw [readl, pwm_disable_poen, hch]
    simp [testBit_u32, Nat.testBit_and, testBit_not32, testBit_shl32_one _ _ hc32]
  · rw [readl, pwm_disable_cnten, hch]
    simp [testBit_u32, Nat.testBit_and, testBit_not32, testBit_shl32_one _ _ hc32]
  · exact pwm_disable_frame pwm_id sE _ (by omega) (by omega)
  · exact pwm_disable_frame pwm_id sE _ (by omega) (by omega)

/-- C5, at id 13 (base 0x405A0000, sub-channel 1) with duty 500000000 ns and
period 1000000000 ns on an all-ones register state. -/
theorem pwm_config_enable_disable_witness :
    (readl (pwm_disable 13 (pwm_enable 13 (pwm_config 13 500000000 1000000000
        (fun _ => 4294967295)).2).2) (0x405A0000 + 0xD8)).testBit 1 = false ∧
      (readl (pwm_disable 13 (pwm_enable 13 (pwm_config 13 500000000 1000000000
        (fun _ => 4294967295)).2).2) (0x405A0000 + 0x20)).testBit 1 = false ∧
      pwm_disable 13 (pwm_enable 13 (pwm_config 13 500000000 1000000000
          (fun _ => 4294967295)).2).2 (0x405A0000 + 0xB0)
        = (pwm_enable 13 (pwm_config 13 500000000 1000000000
          (fun _ => 4294967295)).2).2 (0x405A0000 + 0xB0) ∧
      pwm_disable 13 (pwm_enable 13 (pwm_config 13 500000000 1000000000
          (fun _ => 4294967295)).2).2 (0x405A0000 + 0xB4)
        = (pwm_enable 13 (pwm_config 13 500000000 1000000000
          (fun _ => 4294967295)).2).2 (0x405A0000 + 0xB4) :=
  pwm_config_enable_disable 13 500000000 1000000000 (fun _ => 4294967295)
    (by decide) (by decide)

/-- C6: for a channel id in 0..17 with sub-channel `c`, `pwm_disable` clears
bit `c` of POEN (`B + 0xD8`) and bit `c` of CNTEN (`B + 0x20`), leaves every
other bit of these two registers as it was, and leaves every other register,
in particular WGCTL0, WGCTL1 and POLCTL (`B + 0xD4`), unchanged. -/
theorem pwm_disable_effect (pwm_id : Int) (s : Regs) (h0 : 0 ≤ pwm_id) (h1 : pwm_id ≤ 17) :
    (readl (pwm_disable pwm_id s) (pwm_id_to_regbase pwm_id + 0xD8)).testBit
        (pwm_id % 6).toNat = false ∧
      (readl (pwm_disable pwm_id s) (pwm_id_to_regbase pwm_id + 0x20)).testBit
        (pwm_id % 6).toNat = false ∧
      (∀ i : Nat, i ≠ (pwm_id % 6).toNat →
        (readl (pwm_disable pwm_id s) (pwm_id_to_regbase pwm_id + 0xD8)).testBit i
          = (readl s (pwm_id_to_regbase pwm_id + 0xD8)).testBit i) ∧
      (∀ i : Nat, i ≠ (pwm_id % 6).toNat →
        (readl (pwm_disable pwm_id s) (pwm_id_to_regbase pwm_id + 0x20)).testBit i
          = (readl s (pwm_id_to_regbase pwm_id + 0x20)).testBit i) ∧
      (∀ a : Nat, a ≠ pwm_id_to_regbase pwm_id + 0xD8 → a ≠ pwm_id_to_regbase pwm_id + 0x20 →
        pwm_disable pwm_id s a = s a) ∧
      pwm_disable pwm_id s (pwm_id_to_regbase pwm_id + 0xB0)
        = s (pwm_id_to_regbase pwm_id + 0xB0) ∧
      pwm_disable pwm_id s (pwm_id_to_regbase pwm_id + 0xB4)
        = s (pwm_id_to_regbase pwm_id + 0xB4) ∧
      pwm_disable pwm_id s (pwm_id_to_regbase pwm_id + 0xD4)
        = s (pwm_id_to_regbase pwm_id + 0xD4) := by
  obtain ⟨c, hc, hch, hmod⟩ := pwm_channel_valid pwm_id h0 h1
  rw [← hmod, Int.toNat_ofNat]
  have hc32 : c < 32 := by omega
  refine ⟨?_, ?_, ?_, ?_, ?_, ?_, ?_, ?_⟩
  · rw [readl, pwm_disable_poen, hch]
    simp [testBit_u32, Nat.testBit_and, testBit_not32, testBit_shl32_one _ _ hc32]
  · rw [readl, pwm_disable_cnten, hch]
    simp [testBit_u32, Nat.testBit_and, testBit_not32, testBit_shl32_one _ _ hc32]
  · intro i hi
    rw [readl, pwm_disable_poen, hch]
    by_cases h32 : i < 32 <;>
      simp [testBit_u32, testBit_readl, Nat.testBit_and, testBit_not32,
        testBit_shl32_one _ _ hc32, hi, h32]
  · intro i hi
    rw [readl, pwm_disable_cnten, hch]
    by_cases h32 : i < 32 <;>
      simp [testBit_u32, testBit_readl, Nat.testBit_and, testBit_not32,
        testBit_shl32_one _ _ hc32, hi, h32]
  · intro a ha hb
    exact pwm_disable_frame pwm_id s a ha hb
  · exact pwm_disable_frame pwm_id s _ (by omega) (by omega)
  · exact pwm_disable_frame pwm_id s _ (by omega) (by omega)
  · exact pwm_disable_frame pwm_id s _ (by omega) (by omega)


/-- C6, at id 13 (base 0x405A0000, sub-channel 1) on an all-ones register
state: bit 1 of POEN and CNTEN is cleared, bit 0 is kept. -/
theorem pwm_disable_effect_witness :
    (readl (pwm_disable 13 (fun _ => 4294967295)) (0x405A0000 + 0xD8)).testBit 1 = false ∧
      (readl (pwm_disable 13 (fun _ => 4294967295)) (0x405A0000 + 0x20)).testBit 1 = false ∧
      (readl (pwm_disable 13 (fun _ => 4294967295)) (0x405A0000 + 0xD8)).testBit 0 = true ∧
      pwm_disable 13 (fun _ => 4294967295) (0x405A0000 + 0xD4) = 4294967295 := by
  obtain ⟨hp, hc, hpo, -, -, -, -, hpol⟩ :=
    pwm_disable_effect 13 (fun _ => 4294967295) (by decide) (by decide)
  exact ⟨hp, hc, (hpo 0 (by decide)).trans (by decide), hpol⟩

/-- C7: `pwm_enable` is idempotent: for a channel id in 0..17 and any initial
register state, status and register state after two calls in a row equal those
after one call. -/
theorem pwm_enable_idempotent (pwm_id : Int) (s : Regs) (h0 : 0 ≤ pwm_id) (h1 : pwm_id ≤ 17) :
    pwm_enable pwm_id (pwm_enable pwm_id s).2 = pwm_enable pwm_id s := by
  refine Prod.ext rfl (funext fun a => ?_)
  by_cases a0 : a = pwm_id_to_regbase pwm_id + 0xB0
  · rw [a0, pwm_enable_wgctl0, readl, pwm_enable_wgctl0, setfield_idem]
  by_cases a1 : a = pwm_id_to_regbase pwm_id + 0xB4
  · rw [a1, pwm_enable_wgctl1, readl, pwm_enable_wgctl1, setfield_idem]
  by_cases a2 : a = pwm_id_to_regbase pwm_id + 0xD8
  · rw [a2, pwm_enable_poen, readl, pwm_enable_poen, setbit_idem]
  by_cases a3 : a = pwm_id_to_regbase pwm_id + 0x20
  · rw [a3, pwm_enable_cnten, readl, pwm_enable_cnten, setbit_idem]
  rw [pwm_enable_frame _ _ a a0 a1 a2 a3]

/-- C7, at id 13 on an all-zero register state. -/
theorem pwm_enable_idempotent_witness :
    pwm_enable 13 (pwm_enable 13 (fun _ => 0)).2 = pwm_enable 13 (fun _ => 0) :=
  pwm_enable_idempotent 13 (fun _ => 0) (by decide) (by decide)


/-- C8: for a channel id in 0..17 with sub-channel `c` and group base `B`,
`pwm_init` leaves the clock register 0x40460210 equal to its old value OR
0x07000000, leaves POLCTL (`B + 0xD4`) equal to its old value with bit `c`
cleared when `invert` is non-zero and set when `invert` is zero, leaves every
other register unchanged, and its result does not depend on `div`. -/
theorem pwm_init_effect (pwm_id div invert : Int) (s : Regs)
    (h0 : 0 ≤ pwm_id) (h1 : pwm_id ≤ 17) :
    readl (pwm_init pwm_id div invert s).2 0x40460210
        = readl s 0x40460210 ||| 0x07000000 ∧
      (invert ≠ 0 →
        (readl (pwm_init pwm_id div invert s).2 (pwm_id_to_regbase pwm_id + 0xD4)).testBit
          (pwm_id % 6).toNat = false) ∧
      (invert = 0 →
        (readl (pwm_init pwm_id div invert s).2 (pwm_id_to_regbase pwm_id + 0xD4)).testBit
          (pwm_id % 6).toNat = true) ∧
      (∀ i : Nat, i ≠ (pwm_id % 6).toNat →
        (readl (pwm_init pwm_id div invert s).2 (pwm_id_to_regbase pwm_id + 0xD4)).testBit i
          = (readl s (pwm_id_to_regbase pwm_id + 0xD4)).testBit i) ∧
      (∀ a : Nat, a ≠ 0x40460210 → a ≠ pwm_id_to_regbase pwm_id + 0xD4 →
        (pwm_init pwm_id div invert s).2 a = s a) ∧
      (∀ div2 : Int, pwm_init pwm_id div2 invert s = pwm_init pwm_id div invert s) := by
  obtain ⟨c, hc, hch, hmod⟩ := pwm_channel_valid pwm_id h0 h1
  rw [← hmod, Int.toNat_ofNat]
  have hc32 : c < 32 := by omega
  refine ⟨?_, ?_, ?_, ?_, ?_, ?_⟩
  · rw [readl, pwm_init_clk, Nat.mod_mod]
    apply Nat.mod_eq_of_lt
    have hlt : readl s 0x40460210 ||| 0x07000000 < 2 ^ 32 :=
      Nat.or_lt_two_pow (Nat.mod_lt _ (by norm_num)) (by norm_num)
    exact hlt
  · intro hi
    rw [readl, pwm_init_polctl, if_pos hi, hch]
    simp [testBit_u32, Nat.testBit_and, testBit_not32, testBit_shl32_one _ _ hc32]
  · intro hi
    rw [readl, pwm_init_polctl, if_neg (not_not.mpr hi), hch]
    simp [testBit_u32, Nat.testBit_or, testBit_shl32_one _ _ hc32, hc32]
  · intro i hi
    rw [readl, pwm_init_polctl, hch]
    split_ifs <;> by_cases h32 : i < 32 <;>
      simp [testBit_u32, testBit_readl, Nat.testBit_and, Nat.testBit_or, testBit_not32,
        testBit_shl32_one _ _ hc32, hi, h32]
  · intro a ha hb
    exact pwm_init_frame pwm_id div invert s a ha hb
  · intro div2
    rfl

/-- C8, at id 13 (base 0x405A0000, sub-channel 1) with `invert = 0` on an
all-zero register state: the clock register holds 0x07000000 and POLCTL holds
bit 1 only. -/
theorem pwm_init_effect_witness :
    readl (pwm_init 13 0 0 (fun _ => 0)).2 0x40460210 = 0x07000000 ∧
      (readl (pwm_init 13 0 0 (fun _ => 0)).2 (0x405A0000 + 0xD4)).testBit 1 = true ∧
      (pwm_init 13 0 0 (fun _ => 0)).2 (0x405A0000 + 0xD8) = 0 := by
  obtain ⟨hclk, -, hset, -, hframe, -⟩ :=
    pwm_init_effect 13 0 0 (fun _ => 0) (by decide) (by decide)
  exact ⟨hclk, hset rfl, hframe _ (by decide) (by decide)⟩

/-- C9: `pwm_init` is idempotent: for a channel id in 0..17, any `div` and
`invert` and any initial register state, status and register state after two
calls in a row equal those after one call. -/
theorem pwm_init_idempotent (pwm_id div invert : Int) (s : Regs)
    (h0 : 0 ≤ pwm_id) (h1 : pwm_id ≤ 17) :
    pwm_init pwm_id div invert (pwm_init pwm_id div invert s).2
      = pwm_init pwm_id div invert s := by
  refine Prod.ext rfl (funext fun a => ?_)
  by_cases a0 : a = 0x40460210
  · rw [a0, pwm_init_clk, readl, pwm_init_clk, setbit_idem]
  by_cases a1 : a = pwm_id_to_regbase pwm_id + 0xD4
  · rw [a1, pwm_init_polctl, readl, pwm_init_polctl]
    split_ifs
    · rw [clrbit_idem]
    · rw [setbit_idem]
  rw [pwm_init_frame _ _ _ _ a a0 a1]

/-- C9, at id 13 with `invert = 1` on an all-ones register state. -/
theorem pwm_init_idempotent_witness :
    pwm_init 13 0 1 (pwm_init 13 0 1 (fun _ => 4294967295)).2
      = pwm_init 13 0 1 (fun _ => 4294967295) :=
  pwm_init_idempotent 13 0 1 (fun _ => 4294967295) (by decide) (by decide)

/-- C10: for a channel id in 0..17, any period and any duty `>= 0`, the value
`pwm_config` writes to the channel's compare register (`B + 0x50 + 4c`) is not
0; and `pwm_config(id, 0, 1000)` writes exactly 1 there. -/
theorem pwm_config_compare_nonzero (pwm_id duty_ns period_ns : Int) (s : Regs)
    (h0 : 0 ≤ pwm_id) (h1 : pwm_id ≤ 17) (hd : 0 ≤ duty_ns) :
    readl (pwm_config pwm_id duty_ns period_ns s).2
        (pwm_id_to_regbase pwm_id + 0x50 + 4 * (pwm_id % 6).toNat) ≠ 0 ∧
      readl (pwm_config pwm_id 0 1000 s).2
        (pwm_id_to_regbase pwm_id + 0x50 + 4 * (pwm_id % 6).toNat) = 1 := by
  obtain ⟨-, hD, -⟩ := pwm_config_regs pwm_id duty_ns period_ns s h0 h1
  obtain ⟨-, hD0, -⟩ := pwm_config_regs pwm_id 0 1000 s h0 h1
  constructor
  · rw [readl, hD, Nat.mod_mod]
    exact pwm_config_ticks_low_word duty_ns
  · rw [readl, hD0]
    decide

/-- C10, at id 3 (base 0x40580000, sub-channel 3): a duty of 9999 ns, which
rounds to 0 ticks, leaves a non-zero compare register 0x4058005C, and
`pwm_config(3, 0, 1000)` leaves 1 there. -/
theorem pwm_config_compare_nonzero_witness :
    readl (pwm_config 3 9999 1000 (fun _ => 0)).2 (0x40580000 + 0x50 + 4 * 3) ≠ 0 ∧
      readl (pwm_config 3 0 1000 (fun _ => 0)).2 (0x40580000 + 0x50 + 4 * 3) = 1 :=
  pwm_config_compare_nonzero 3 9999 1000 (fun _ => 0) (by decide) (by decide) (by decide)


/-! ## Further auxiliary facts -/

/-- Addresses `pwm_config` does not write keep their content. -/
theorem pwm_config_frame (pwm_id duty_ns period_ns : Int) (s : Regs)
    (h0 : 0 ≤ pwm_id) (h1 : pwm_id ≤ 17) (a : Nat)
    (hP : a ≠ pwm_id_to_regbase pwm_id + 0x30 + 4 * (pwm_id % 6).toNat)
    (hC : a ≠ pwm_id_to_regbase pwm_id + 0x50 + 4 * (pwm_id % 6).toNat)
    (hS : a ≠ pwm_id_to_regbase pwm_id + 0x14 + 4 * ((pwm_id % 6).toNat / 2)) :
    (pwm_config pwm_id duty_ns period_ns s).2 a = s a := by
  obtain ⟨c, hc, hch, hmod⟩ := pwm_channel_valid pwm_id h0 h1
  rw [← hmod, Int.toNat_ofNat] at hP hC hS
  generalize hB : pwm_id_to_regbase pwm_id = B at hP hC hS
  interval_cases c <;>
    simp [pwm_config, hch, hB, writel, REG_PWM_CLKPSC01, REG_PWM_CLKPSC23, REG_PWM_CLKPSC45,
      REG_PWM_PERIOD0, REG_PWM_PERIOD1, REG_PWM_PERIOD2, REG_PWM_PERIOD3, REG_PWM_PERIOD4,
      REG_PWM_PERIOD5, REG_PWM_CMPDAT0, REG_PWM_CMPDAT1, REG_PWM_CMPDAT2, REG_PWM_CMPDAT3,
      REG_PWM_CMPDAT4, REG_PWM_CMPDAT5, Nat.add_assoc] <;>
    simp_all [Nat.add_assoc]

/-- Two distinct ids in 0..17 of the same group have distinct sub-channels. -/
theorem pwm_channel_ne_of_same_base (a b : Int) (ha0 : 0 ≤ a) (ha1 : a ≤ 17)
    (hb0 : 0 ≤ b) (hb1 : b ≤ 17) (hab : a ≠ b)
    (hB : pwm_id_to_regbase a = pwm_id_to_regbase b) : a % 6 ≠ b % 6 := by
  unfold pwm_id_to_regbase at hB
  split_ifs at hB <;> omega

/-! ## Claims on error handling and frame effects -/

/-- C11: `pwm_id_to_regbase` returns the sentinel base address 0 exactly for the
ids below 0 or above 17; it is a total function, so no error is raised. -/
theorem pwm_id_to_regbase_zero_iff (pwm_id : Int) :
    pwm_id_to_regbase pwm_id = 0 ↔ (pwm_id < 0 ∨ 17 < pwm_id) := by
  unfold pwm_id_to_regbase
  split_ifs <;> constructor <;> intro h <;> first | omega | simp at h

/-- C12, as stated, fails: the ids 18 and -1, outside 0..17, resolve to the base
address 0. -/
theorem regbase_error_claim_refuted :
    ¬ (pwm_id_to_regbase 18 ≠ 0) ∧ ¬ (pwm_id_to_regbase (-1) ≠ 0) := by
  decide

/-- C12, amended: for every channel id outside 0..17, resolving the channel
yields the sentinel base address 0 (a plain `unsigned int`, no error value). -/
theorem pwm_id_to_regbase_sentinel (pwm_id : Int) (h : pwm_id < 0 ∨ 17 < pwm_id) :
    pwm_id_to_regbase pwm_id = 0 := by
  unfold pwm_id_to_regbase
  split_ifs <;> omega

/-- C12, amended, at id 18. -/
theorem pwm_id_to_regbase_sentinel_witness : pwm_id_to_regbase 18 = 0 :=
  pwm_id_to_regbase_sentinel 18 (by decide)

/-- C13: `pwm_init`, `pwm_config` and `pwm_enable` return status 0 for all
arguments and every register state; an id of 18 or more resolves to base
address 0 and the status is 0 all the same. -/
theorem pwm_status_zero (pwm_id div invert duty_ns period_ns : Int) (s : Regs) :
    (pwm_init pwm_id div invert s).1 = 0 ∧
      (pwm_config pwm_id duty_ns period_ns s).1 = 0 ∧
      (pwm_enable pwm_id s).1 = 0 ∧
      (18 ≤ pwm_id → pwm_id_to_regbase pwm_id = 0) := by
  refine ⟨rfl, rfl, rfl, ?_⟩
  intro h
  unfold pwm_id_to_regbase
  split_ifs <;> omega

/-- C17: for a channel id in 0..17 with sub-channel `c` and group base `B`,
`pwm_config` writes the period register `B + 0x30 + 4c`, the compare register
`B + 0x50 + 4c` and the prescale register `B + 0x14 + 4 (c / 2)`, and every
other register, in particular CNTEN, POEN, POLCTL, WGCTL0, WGCTL1 and the clock
register, has the content it had before the call. -/
theorem pwm_config_writes_three (pwm_id duty_ns period_ns : Int) (s : Regs)
    (h0 : 0 ≤ pwm_id) (h1 : pwm_id ≤ 17) :
    (pwm_config pwm_id duty_ns period_ns s).2
        (pwm_id_to_regbase pwm_id + 0x30 + 4 * (pwm_id % 6).toNat)
        = subULong (pwm_config_ticks period_ns) 1 % 4294967296 ∧
      (pwm_config pwm_id duty_ns period_ns s).2
        (pwm_id_to_regbase pwm_id + 0x50 + 4 * (pwm_id % 6).toNat)
        = pwm_config_ticks duty_ns % 4294967296 ∧
      (pwm_config pwm_id duty_ns period_ns s).2
        (pwm_id_to_regbase pwm_id + 0x14 + 4 * ((pwm_id % 6).toNat / 2)) = 3599 ∧
      (∀ a : Nat, a ≠ pwm_id_to_regbase pwm_id + 0x30 + 4 * (pwm_id % 6).toNat →
        a ≠ pwm_id_to_regbase pwm_id + 0x50 + 4 * (pwm_id % 6).toNat →
        a ≠ pwm_id_to_regbase pwm_id + 0x14 + 4 * ((pwm_id % 6).toNat / 2) →
        (pwm_config pwm_id duty_ns period_ns s).2 a = s a) ∧
      (pwm_config pwm_id duty_ns period_ns s).2 (pwm_id_to_regbase pwm_id + 0x20)
        = s (pwm_id_to_regbase pwm_id + 0x20) ∧
      (pwm_config pwm_id duty_ns period_ns s).2 (pwm_id_to_regbase pwm_id + 0xD8)
        = s (pwm_id_to_regbase pwm_id + 0xD8) ∧
      (pwm_config pwm_id duty_ns period_ns s).2 (pwm_id_to_regbase pwm_id + 0xD4)
        = s (pwm_id_to_regbase pwm_id + 0xD4) ∧
      (pwm_config pwm_id duty_ns period_ns s).2 (pwm_id_to_regbase pwm_id + 0xB0)
        = s (pwm_id_to_regbase pwm_id + 0xB0) ∧
      (pwm_config pwm_id duty_ns period_ns s).2 (pwm_id_to_regbase pwm_id + 0xB4)
        = s (pwm_id_to_regbase pwm_id + 0xB4) ∧
      (pwm_config pwm_id duty_ns period_ns s).2 0x40460210 = s 0x40460210 := by
  obtain ⟨hP, hC, hS⟩ := pwm_config_regs pwm_id duty_ns period_ns s h0 h1
  obtain ⟨c, hc, -, hmod⟩ := pwm_channel_valid pwm_id h0 h1
  have hB := pwm_id_to_regbase_cases pwm_id h0 h1
  have hf := pwm_config_frame pwm_id duty_ns period_ns s h0 h1
  rw [← hmod, Int.toNat_ofNat] at hf
  refine ⟨hP, hC, hS, ?_, ?_, ?_, ?_, ?_, ?_, ?_⟩
  · rw [← hmod, Int.toNat_ofNat]
    exact hf
  all_goals exact hf _ (by omega) (by omega) (by omega)

/-- C17, at id 13 (base 0x405A0000, sub-channel 1) on an all-ones register
state: the three registers are written, POEN and the clock register are not. -/
theorem pwm_config_writes_three_witness :
    (pwm_config 13 500000000 1000000000 (fun _ => 4294967295)).2 (0x405A0000 + 0x34) = 49999 ∧
      (pwm_config 13 500000000 1000000000 (fun _ => 4294967295)).2 (0x405A0000 + 0x54) = 25000 ∧
      (pwm_config 13 500000000 1000000000 (fun _ => 4294967295)).2 (0x405A0000 + 0x14) = 3599 ∧
      (pwm_config 13 500000000 1000000000 (fun _ => 4294967295)).2 (0x405A0000 + 0xD8)
        = 4294967295 ∧
      (pwm_config 13 500000000 1000000000 (fun _ => 4294967295)).2 0x40460210 = 4294967295 := by
  obtain ⟨hP, hC, hS, -, -, hpoen, -, -, -, hclk⟩ :=
    pwm_config_writes_three 13 500000000 1000000000 (fun _ => 4294967295)
      (by decide) (by decide)
  exact ⟨hP.trans (by decide), hC.trans (by decide), hS, hpoen, hclk⟩

/-- C20: `pwm_config` does not compare duty and period: for id 0, duty 1000000 ns
and period 20000 ns (duty above period, both non-negative) it returns 0, the
tick counts are the unclamped quotients 50 and 1, the compare register
0x40580050 receives 50 and the period register 0x40580030 receives 0, so the
compare value is strictly above the period value. -/
theorem pwm_config_duty_above_period (s : Regs) :
    (0 : Int) ≤ 20000 ∧ (20000 : Int) < 1000000 ∧
      (pwm_config 0 1000000 20000 s).1 = 0 ∧
      pwm_config_ticks 1000000 = 50 ∧ ((1000000 : Int) + 10000) / 20000 = 50 ∧
      pwm_config_ticks 20000 = 1 ∧ ((20000 : Int) + 10000) / 20000 = 1 ∧
      readl (pwm_config 0 1000000 20000 s).2 0x40580050 = 50 ∧
      readl (pwm_config 0 1000000 20000 s).2 0x40580030 = 0 ∧
      readl (pwm_config 0 1000000 20000 s).2 0x40580030
        < readl (pwm_config 0 1000000 20000 s).2 0x40580050 := by
  obtain ⟨hP, hC, -⟩ := pwm_config_regs 0 1000000 20000 s (by decide) (by decide)
  have eP : readl (pwm_config 0 1000000 20000 s).2 0x40580030 = 0 := by
    rw [readl]
    exact (congrArg (· % 4294967296) hP).trans (by decide)
  have eC : readl (pwm_config 0 1000000 20000 s).2 0x40580050 = 50 := by
    rw [readl]
    exact (congrArg (· % 4294967296) hC).trans (by decide)
  refine ⟨by decide, by decide, rfl, by decide, by decide, by decide, by decide, eC, eP, ?_⟩
  rw [eP, eC]
  decide


/-- C16: for a channel id in 0..17 with sub-channel `c`, `pwm_enable` sets bit
`c` of POEN (`B + 0xD8`) and of CNTEN (`B + 0x20`) and keeps their other bits,
changes in WGCTL0 (`B + 0xB0`) and WGCTL1 (`B + 0xB4`) only the 2-bit field at
bits `[2c+1 : 2c]`, leaves different values in those two fields, and leaves
every other register unchanged. -/
theorem pwm_enable_effect (pwm_id : Int) (s : Regs) (h0 : 0 ≤ pwm_id) (h1 : pwm_id ≤ 17) :
    (readl (pwm_enable pwm_id s).2 (pwm_id_to_regbase pwm_id + 0xD8)).testBit
        (pwm_id % 6).toNat = true ∧
      (readl (pwm_enable pwm_id s).2 (pwm_id_to_regbase pwm_id + 0x20)).testBit
        (pwm_id % 6).toNat = true ∧
      (∀ i : Nat, i ≠ (pwm_id % 6).toNat →
        (readl (pwm_enable pwm_id s).2 (pwm_id_to_regbase pwm_id + 0xD8)).testBit i
          = (readl s (pwm_id_to_regbase pwm_id + 0xD8)).testBit i) ∧
      (∀ i : Nat, i ≠ (pwm_id % 6).toNat →
        (readl (pwm_enable pwm_id s).2 (pwm_id_to_regbase pwm_id + 0x20)).testBit i
          = (readl s (pwm_id_to_regbase pwm_id + 0x20)).testBit i) ∧
      (∀ i : Nat, i ≠ 2 * (pwm_id % 6).toNat → i ≠ 2 * (pwm_id % 6).toNat + 1 →
        (readl (pwm_enable pwm_id s).2 (pwm_id_to_regbase pwm_id + 0xB0)).testBit i
          = (readl s (pwm_id_to_regbase pwm_id + 0xB0)).testBit i) ∧
      (∀ i : Nat, i ≠ 2 * (pwm_id % 6).toNat → i ≠ 2 * (pwm_id % 6).toNat + 1 →
        (readl (pwm_enable pwm_id s).2 (pwm_id_to_regbase pwm_id + 0xB4)).testBit i
          = (readl s (pwm_id_to_regbase pwm_id + 0xB4)).testBit i) ∧
      field2 (readl (pwm_enable pwm_id s).2 (pwm_id_to_regbase pwm_id + 0xB0))
          (pwm_id % 6).toNat
        ≠ field2 (readl (pwm_enable pwm_id s).2 (pwm_id_to_regbase pwm_id + 0xB4))
          (pwm_id % 6).toNat ∧
      (∀ a : Nat, a ≠ pwm_id_to_regbase pwm_id + 0xB0 → a ≠ pwm_id_to_regbase pwm_id + 0xB4 →
        a ≠ pwm_id_to_regbase pwm_id + 0xD8 → a ≠ pwm_id_to_regbase pwm_id + 0x20 →
        (pwm_enable pwm_id s).2 a = s a) := by
  obtain ⟨c, hc, hch, hmod⟩ := pwm_channel_valid pwm_id h0 h1
  rw [← hmod, Int.toNat_ofNat]
  have hc32 : c < 32 := by omega
  have hc1 : 2 * c < 32 := by omega
  have hc2 : 2 * c + 1 < 32 := by omega
  refine ⟨?_, ?_, ?_, ?_, ?_, ?_, ?_, ?_⟩
  · rw [readl, pwm_enable_poen, hch]
    simp [testBit_u32, Nat.testBit_or, testBit_shl32_one _ _ hc32, hc32]
  · rw [readl, pwm_enable_cnten, hch]
    simp [testBit_u32, Nat.testBit_or, testBit_shl32_one _ _ hc32, hc32]
  · intro i hi
    rw [readl, pwm_enable_poen, hch]
    by_cases h32 : i < 32 <;>
      simp [testBit_u32, testBit_readl, Nat.testBit_or, testBit_shl32_one _ _ hc32, hi, h32]
  · intro i hi
    rw [readl, pwm_enable_cnten, hch]
    by_cases h32 : i < 32 <;>
      simp [testBit_u32, testBit_readl, Nat.testBit_or, testBit_shl32_one _ _ hc32, hi, h32]
  · intro i hi hj
    have hm : ¬ (2 * c ≤ i ∧ i < 2 * c + 2) := by omega
    rw [readl, pwm_enable_wgctl0, hch]
    by_cases h32 : i < 32 <;>
      simp [testBit_u32, testBit_readl, Nat.testBit_or, Nat.testBit_and, testBit_not32,
        testBit_shl32_mask _ _ hc, testBit_shl32_high _ _ hc, hm, hj, h32]
  · intro i hi hj
    have hm : ¬ (2 * c ≤ i ∧ i < 2 * c + 2) := by omega
    rw [readl, pwm_enable_wgctl1, hch]
    by_cases h32 : i < 32 <;>
      simp [testBit_u32, testBit_readl, Nat.testBit_or, Nat.testBit_and, testBit_not32,
        testBit_shl32_mask _ _ hc, testBit_shl32_low _ _ hc, hm, hi, h32]
  · have e0 : field2 (readl (pwm_enable pwm_id s).2 (pwm_id_to_regbase pwm_id + 0xB0)) c = 2 := by
      rw [readl, pwm_enable_wgctl0, hch, field2_eq]
      simp [testBit_u32, Nat.testBit_or, Nat.testBit_and, testBit_not32,
        testBit_shl32_mask _ _ hc, testBit_shl32_high _ _ hc, hc1, hc2]
    have e1 : field2 (readl (pwm_enable pwm_id s).2 (pwm_id_to_regbase pwm_id + 0xB4)) c = 1 := by
      rw [readl, pwm_enable_wgctl1, hch, field2_eq]
      simp [testBit_u32, Nat.testBit_or, Nat.testBit_and, testBit_not32,
        testBit_shl32_mask _ _ hc, testBit_shl32_low _ _ hc, hc1, hc2]
    rw [e0, e1]
    decide
  · intro a a0 a1 a2 a3
    exact pwm_enable_frame pwm_id s a a0 a1 a2 a3

/-- C16, at id 13 (base 0x405A0000, sub-channel 1) on an all-zero register
state: bit 1 of POEN and CNTEN is set, bit 0 of POEN stays clear, bit 0 of
WGCTL0 stays clear and POLCTL is untouched. -/
theorem pwm_enable_effect_witness :
    (readl (pwm_enable 13 (fun _ => 0)).2 (0x405A0000 + 0xD8)).testBit 1 = true ∧
      (readl (pwm_enable 13 (fun _ => 0)).2 (0x405A0000 + 0x20)).testBit 1 = true ∧
      (readl (pwm_enable 13 (fun _ => 0)).2 (0x405A0000 + 0xD8)).testBit 0 = false ∧
      (readl (pwm_enable 13 (fun _ => 0)).2 (0x405A0000 + 0xB0)).testBit 0 = false ∧
      (pwm_enable 13 (fun _ => 0)).2 (0x405A0000 + 0xD4) = 0 := by
  obtain ⟨hp, hc, hpo, -, hw0, -, -, hframe⟩ :=
    pwm_enable_effect 13 (fun _ => 0) (by decide) (by decide)
  exact ⟨hp, hc, (hpo 0 (by decide)).trans (by decide),
    (hw0 0 (by decide) (by decide)).trans (by decide),
    hframe _ (by decide) (by decide) (by decide) (by decide)⟩

/-- The clamp: a tick count is at least 1. -/
theorem pwm_config_ticks_pos (ns : Int) : 1 ≤ pwm_config_ticks ns := by
  unfold pwm_config_ticks
  simp only []
  split_ifs with h <;> omega

/-- A tick count is an `unsigned long` value. -/
theorem pwm_config_ticks_lt (ns : Int) : pwm_config_ticks ns < 18446744073709551616 := by
  unfold pwm_config_ticks toULong
  simp only []
  split_ifs with h <;> omega

/-- What the clamp gives for the period register of a channel id in 0..17 and a
period `>= 0`: the tick count is at least 1, so the `unsigned long`
subtraction `period - 1` does not wrap; the 32-bit value stored is not
0xFFFFFFFF and is one less than the low 32 bits of the tick count; it is one
less than the tick count itself wherever `period_ns + 10000` fits an `int`,
and 0 for a period below 10000 ns. -/
theorem pwm_config_period_low_word (pwm_id duty_ns period_ns : Int) (s : Regs)
    (h0 : 0 ≤ pwm_id) (h1 : pwm_id ≤ 17) (hp : 0 ≤ period_ns) :
    1 ≤ pwm_config_ticks period_ns ∧
      subULong (pwm_config_ticks period_ns) 1 + 1 = pwm_config_ticks period_ns ∧
      readl (pwm_config pwm_id duty_ns period_ns s).2
        (pwm_id_to_regbase pwm_id + 0x30 + 4 * (pwm_id % 6).toNat) ≠ 4294967295 ∧
      readl (pwm_config pwm_id duty_ns period_ns s).2
        (pwm_id_to_regbase pwm_id + 0x30 + 4 * (pwm_id % 6).toNat) + 1
        = pwm_config_ticks period_ns % 4294967296 ∧
      (period_ns ≤ 2147483647 - 10000 →
        readl (pwm_config pwm_id duty_ns period_ns s).2
          (pwm_id_to_regbase pwm_id + 0x30 + 4 * (pwm_id % 6).toNat) + 1
          = pwm_config_ticks period_ns) ∧
      (period_ns < 10000 →
        readl (pwm_config pwm_id duty_ns period_ns s).2
          (pwm_id_to_regbase pwm_id + 0x30 + 4 * (pwm_id % 6).toNat) = 0) := by
  obtain ⟨hP, -, -⟩ := pwm_config_regs pwm_id duty_ns period_ns s h0 h1
  have hpos := pwm_config_ticks_pos period_ns
  have hlt := pwm_config_ticks_lt period_ns
  have hlow := pwm_config_ticks_low_word period_ns
  rw [readl, hP]
  unfold subULong
  refine ⟨hpos, by omega, by omega, by omega, ?_, ?_⟩
  · intro hr
    have tp := pwm_config_ticks_in_range period_ns hp hr
    have hq : (period_ns + 10000) / 20000 ≤ 107374 := by omega
    omega
  · intro hr
    have tp := pwm_config_ticks_in_range period_ns hp (by omega)
    have hq : (period_ns + 10000) / 20000 = 0 := by omega
    omega

/-- C18, at the failing input: for id 13 (base 0x405A0000, sub-channel 1) and
`period_ns = 2147473648`, the first period whose `int` sum
`period_ns + 10000` overflows, the sum wraps to `-2147483648`, the quotient is
`-107374`, the tick count stored in the `unsigned long` is `2^64 - 107374` and
the period register 0x405A0034 receives `2^32 - 107375`: not 0xFFFFFFFF, but
not the tick count minus 1 either. -/
theorem pwm_config_period_overflow :
    (0 : Int) ≤ 2147473648 ∧ (2147473648 : Int) ≤ 2147483647 ∧
      wrapInt (2147473648 + 10000) = -2147483648 ∧
      pwm_config_ticks 2147473648 = 18446744073709444242 ∧
      readl (pwm_config 13 0 2147473648 (fun _ => 0)).2 0x405A0034 = 4294859921 ∧
      readl (pwm_config 13 0 2147473648 (fun _ => 0)).2 0x405A0034 + 1
        ≠ pwm_config_ticks 2147473648 ∧
      readl (pwm_config 13 0 2147473648 (fun _ => 0)).2 0x405A0034 ≠ 4294967295 := by
  refine ⟨by decide, by decide, by decide, by decide, by decide, by decide, by decide⟩


/-! ## Claims on the clock register and on board initialisation -/

/-- A call with an id in 0..17 keeps every set bit of the clock register set. -/
theorem exec_clk_mono (c : PwmCall) (s : Regs) (h0 : 0 ≤ c.id) (h1 : c.id ≤ 17) (i : Nat)
    (hi : (readl s 0x40460210).testBit i = true) :
    (readl (c.exec s) 0x40460210).testBit i = true := by
  cases c with
  | init pwm_id div invert =>
    simp only [PwmCall.exec]
    rw [readl, pwm_init_clk]
    rw [testBit_readl] at hi
    simp only [Bool.and_eq_true, decide_eq_true_eq] at hi
    simp [testBit_u32, testBit_readl, Nat.testBit_or, hi.1, hi.2]
  | config pwm_id duty_ns period_ns =>
    simp only [PwmCall.id] at h0 h1
    have hB := pwm_id_to_regbase_cases pwm_id h0 h1
    obtain ⟨k, hk, -, hmod⟩ := pwm_channel_valid pwm_id h0 h1
    have hf := pwm_config_frame pwm_id duty_ns period_ns s h0 h1 0x40460210
    rw [← hmod, Int.toNat_ofNat] at hf
    simp only [PwmCall.exec]
    rw [readl, hf (by omega) (by omega) (by omega)]
    exact hi
  | enable pwm_id =>
    simp only [PwmCall.id] at h0 h1
    have hB := pwm_id_to_regbase_cases pwm_id h0 h1
    simp only [PwmCall.exec]
    rw [readl, pwm_enable_frame pwm_id s _ (by omega) (by omega) (by omega) (by omega)]
    exact hi
  | disable pwm_id =>
    simp only [PwmCall.id] at h0 h1
    have hB := pwm_id_to_regbase_cases pwm_id h0 h1
    simp only [PwmCall.exec]
    rw [readl, pwm_disable_frame pwm_id s _ (by omega) (by omega)]
    exact hi

/-- A sequence of calls with ids in 0..17 keeps every set bit of the clock
register set. -/
theorem run_calls_clk_mono (calls : List PwmCall) (s : Regs)
    (hv : ∀ c ∈ calls, 0 ≤ c.id ∧ c.id ≤ 17) (i : Nat)
    (hi : (readl s 0x40460210).testBit i = true) :
    (readl (run_calls calls s) 0x40460210).testBit i = true := by
  induction calls generalizing s with
  | nil => exact hi
  | cons c cs ih =>
    have hc := hv c (List.mem_cons_self c cs)
    exact ih (c.exec s) (fun d hd => hv d (List.mem_cons_of_mem c hd))
      (exec_clk_mono c s hc.1 hc.2 i hi)

/-- C14: for a channel id in 0..17 each of `pwm_init`, `pwm_config`,
`pwm_enable` and `pwm_disable` leaves every set bit of the clock register
0x40460210 set; and after a `pwm_init`, bits 24..26 (mask 0x07000000) of that
register are set after every later sequence of driver calls with ids in 0..17. -/
theorem clock_never_disabled (pwm_id div invert duty_ns period_ns : Int) (s : Regs)
    (h0 : 0 ≤ pwm_id) (h1 : pwm_id ≤ 17) :
    (∀ i : Nat, (readl s 0x40460210).testBit i = true →
        (readl (pwm_init pwm_id div invert s).2 0x40460210).testBit i = true) ∧
      (∀ i : Nat, (readl s 0x40460210).testBit i = true →
        (readl (pwm_config pwm_id duty_ns period_ns s).2 0x40460210).testBit i = true) ∧
      (∀ i : Nat, (readl s 0x40460210).testBit i = true →
        (readl (pwm_enable pwm_id s).2 0x40460210).testBit i = true) ∧
      (∀ i : Nat, (readl s 0x40460210).testBit i = true →
        (readl (pwm_disable pwm_id s) 0x40460210).testBit i = true) ∧
      (∀ calls : List PwmCall, (∀ c ∈ calls, 0 ≤ c.id ∧ c.id ≤ 17) →
        readl (run_calls calls (pwm_init pwm_id div invert s).2) 0x40460210 &&& 0x07000000
          = 0x07000000) := by
  refine ⟨?_, ?_, ?_, ?_, ?_⟩
  · intro i hi
    exact exec_clk_mono (.init pwm_id div invert) s h0 h1 i hi
  · intro i hi
    exact exec_clk_mono (.config pwm_id duty_ns period_ns) s h0 h1 i hi
  · intro i hi
    exact exec_clk_mono (.enable pwm_id) s h0 h1 i hi
  · intro i hi
    exact exec_clk_mono (.disable pwm_id) s h0 h1 i hi
  · intro calls hv
    apply Nat.eq_of_testBit_eq
    intro i
    rw [Nat.testBit_and]
    cases hm : Nat.testBit 0x07000000 i with
    | false => simp
    | true =>
      have hlt : i < 32 := by
        by_contra hge
        have : (0x07000000 : Nat) < 2 ^ i :=
          lt_of_lt_of_le (by norm_num) (Nat.pow_le_pow_right (by norm_num) (by omega : 32 ≤ i))
        rw [Nat.testBit_lt_two_pow this] at hm
        exact Bool.noConfusion hm
      have hset : (readl (pwm_init pwm_id div invert s).2 0x40460210).testBit i = true := by
        rw [readl, pwm_init_clk]
        simp [testBit_u32, Nat.testBit_or, hm, hlt]
      rw [run_calls_clk_mono calls _ hv i hset]
      rfl

/-- C14, at id 13: after `pwm_init(13, 0, 0)` on an all-zero register state and
then `pwm_disable(13)`, `pwm_config(2, 0, 0)`, `pwm_enable(7)`, the clock bits
24..26 are set. -/
theorem clock_never_disabled_witness :
    readl (run_calls [PwmCall.disable 13, PwmCall.config 2 0 0, PwmCall.enable 7]
        (pwm_init 13 0 0 (fun _ => 0)).2) 0x40460210 &&& 0x07000000 = 0x07000000 :=
  (clock_never_disabled 13 0 0 0 0 (fun _ => 0) (by decide) (by decide)).2.2.2.2
    [PwmCall.disable 13, PwmCall.config 2 0 0, PwmCall.enable 7] (by decide)


/-- Bits of the pin-function mask 0xF0000. -/
theorem testBit_F0000 (j : Nat) : Nat.testBit 0xF0000 j = decide (16 ≤ j ∧ j < 20) := by
  have e : (0xF0000 : Nat) = 15 <<< 16 := by decide
  have h15 : ∀ k, Nat.testBit 15 k = decide (k < 4) := Nat.testBit_two_pow_sub_one 4
  rw [e, Nat.testBit_shiftLeft, h15]
  by_cases h1 : 16 ≤ j <;> by_cases h2 : j - 16 < 4 <;> simp [h1, h2] <;> omega

/-- Bits of the pin-function value 0x10000. -/
theorem testBit_10000 (j : Nat) : Nat.testBit 0x10000 j = decide (j = 16) := by
  have h := @Nat.testBit_two_pow 16 j
  simpa [eq_comm] using h

/-- A 4-bit field at bits `[19 : 16]` whose bit 16 is set and whose bits 17..19
are clear has the value 1. -/
theorem field_19_16_eq_one (v : Nat) (h16 : v.testBit 16 = true) (h17 : v.testBit 17 = false)
    (h18 : v.testBit 18 = false) (h19 : v.testBit 19 = false) : (v >>> 16) % 16 = 1 := by
  have e : (16 : Nat) = 2 ^ 4 := by norm_num
  rw [e]
  apply Nat.eq_of_testBit_eq
  intro i
  rw [Nat.testBit_mod_two_pow, Nat.testBit_shiftRight, testBit_one]
  by_cases hi : i < 4
  · interval_cases i <;> simp [h16, h17, h18, h19]
  · have : i ≠ 0 := by omega
    simp [hi, this]

/-- C15: with PWM support configured, `board_late_init` returns 0; bits 19..16
of the pin multi-function register 0x404600B0 become 0x1 and its other bits are
unchanged; the register state is the one reached by `pwm_init(6, 0, 0)`, then
`pwm_config(6, 500000000, 1000000000)`, then `pwm_enable(6)` after the pin
write; the period register 0x40590030 holds 49999, the compare register
0x40590050 holds 25000, the prescale register 0x40590014 holds 3599, and bit 0
of POEN (0x405900D8) and of CNTEN (0x40590020) is set. From the
initialisation, the clock register 0x40460210 holds its old value OR
0x07000000 and bit 0 of POLCTL (0x405900D4) is set. -/
theorem board_late_init_effect (s : Regs) :
    (board_late_init true s).1 = 0 ∧
      (readl (board_late_init true s).2 0x404600B0 >>> 16) % 16 = 1 ∧
      (∀ i : Nat, (i < 16 ∨ 19 < i) →
        (readl (board_late_init true s).2 0x404600B0).testBit i
          = (readl s 0x404600B0).testBit i) ∧
      (board_late_init true s).2
        = (pwm_enable 6 (pwm_config 6 500000000 1000000000 (pwm_init 6 0 0
            (writel ((readl s 0x404600B0 &&& not32 0xF0000) ||| 0x10000) 0x404600B0 s)).2).2).2 ∧
      readl (board_late_init true s).2 0x40590030 = 49999 ∧
      readl (board_late_init true s).2 0x40590050 = 25000 ∧
      readl (board_late_init true s).2 0x40590014 = 3599 ∧
      (readl (board_late_init true s).2 0x405900D8).testBit 0 = true ∧
      (readl (board_late_init true s).2 0x40590020).testBit 0 = true ∧
      readl (board_late_init true s).2 0x40460210 = readl s 0x40460210 ||| 0x07000000 ∧
      (readl (board_late_init true s).2 0x405900D4).testBit 0 = true := by
  have hB : pwm_id_to_regbase 6 = 0x40590000 := by decide
  have hch : pwm_channel 6 = ((0 : Nat) : Int) := by decide
  have hdef : (board_late_init true s).2
      = (pwm_enable 6 (pwm_config 6 500000000 1000000000 (pwm_init 6 0 0
          (writel ((readl s 0x404600B0 &&& not32 0xF0000) ||| 0x10000) 0x404600B0 s)).2).2).2 :=
    rfl
  generalize hs1 : writel ((readl s 0x404600B0 &&& not32 0xF0000) ||| 0x10000) 0x404600B0 s = s1
    at hdef
  generalize hs2 : (pwm_init 6 0 0 s1).2 = s2 at hdef
  generalize hs3 : (pwm_config 6 500000000 1000000000 s2).2 = s3 at hdef
  have hf2 := pwm_init_frame 6 0 0 s1
  have hf3 := pwm_config_frame 6 500000000 1000000000 s2 (by decide) (by decide)
  have hr3 := pwm_config_regs 6 500000000 1000000000 s2 (by decide) (by decide)
  have hf4 := pwm_enable_frame 6 s3
  have hpo := pwm_enable_poen 6 s3
  have hcn := pwm_enable_cnten 6 s3
  have hmod : ((6 : Int) % 6).toNat = 0 := by decide
  have hclk := pwm_init_clk 6 0 0 s1
  have hpol := pwm_init_polctl 6 0 0 s1
  rw [hs2] at hclk
  rw [hB, hch, hs2, if_neg (by decide)] at hpol
  have hclk1 : readl s1 0x40460210 = readl s 0x40460210 := by
    rw [← hs1]
    simp [readl, writel]
  rw [hB, hs2] at hf2
  rw [hB, hmod, hs3] at hf3 hr3
  rw [hB] at hf4
  rw [hB, hch] at hpo hcn
  obtain ⟨hP, hC, hS⟩ := hr3
  have hmf : (board_late_init true s).2 0x404600B0
      = ((readl s 0x404600B0 &&& not32 0xF0000) ||| 0x10000) % 4294967296 := by
    rw [hdef, hf4 _ (by decide) (by decide) (by decide) (by decide),
      hf3 _ (by decide) (by decide) (by decide), hf2 _ (by decide) (by decide), ← hs1]
    simp [writel]
  have hbit : ∀ i : Nat, (readl (board_late_init true s).2 0x404600B0).testBit i
      = (decide (i < 32) && (((readl s 0x404600B0).testBit i && !decide (16 ≤ i ∧ i < 20))
          || decide (i = 16))) := by
    intro i
    rw [readl, hmf]
    by_cases h32 : i < 32 <;>
      simp [testBit_u32, Nat.testBit_or, Nat.testBit_and, testBit_not32, testBit_F0000,
        testBit_10000, h32]
  refine ⟨rfl, ?_, ?_, ?_, ?_, ?_, ?_, ?_, ?_, ?_, ?_⟩
  · apply field_19_16_eq_one <;> rw [hbit] <;> simp
  · intro i hi
    rw [hbit]
    have h1 : ¬ (16 ≤ i ∧ i < 20) := by omega
    have h2 : i ≠ 16 := by omega
    by_cases h32 : i < 32 <;> simp [testBit_readl, h1, h2, h32]
  · exact hdef
  · rw [readl, hdef, hf4 _ (by decide) (by decide) (by decide) (by decide)]
    exact (congrArg (· % 4294967296) hP).trans (by decide)
  · rw [readl, hdef, hf4 _ (by decide) (by decide) (by decide) (by decide)]
    exact (congrArg (· % 4294967296) hC).trans (by decide)
  · rw [readl, hdef, hf4 _ (by decide) (by decide) (by decide) (by decide)]
    exact (congrArg (· % 4294967296) hS).trans (by decide)
  · rw [readl, hdef, hpo]
    simp only [testBit_u32, Nat.testBit_or, testBit_shl32_one 0 0 (by decide)]
    simp
  · rw [readl, hdef, hcn]
    simp only [testBit_u32, Nat.testBit_or, testBit_shl32_one 0 0 (by decide)]
    simp
  · rw [readl, hdef, hf4 _ (by decide) (by decide) (by decide) (by decide),
      hf3 _ (by decide) (by decide) (by decide), hclk, hclk1, Nat.mod_mod]
    apply Nat.mod_eq_of_lt
    have hlt : readl s 0x40460210 ||| 0x07000000 < 2 ^ 32 :=
      Nat.or_lt_two_pow (Nat.mod_lt _ (by norm_num)) (by norm_num)
    exact hlt
  · rw [readl, hdef, hf4 _ (by decide) (by decide) (by decide) (by decide),
      hf3 _ (by decide) (by decide) (by decide), hpol]
    simp only [testBit_u32, Nat.testBit_or, testBit_shl32_one 0 0 (by decide)]
    simp


/-! ## Claim on the independence of channels -/

/-- Outside the clock register, `pwm_init` changes at most the polarity bit of
its own sub-channel. -/
theorem pwm_init_bit_frame (pwm_id div invert : Int) (s : Regs)
    (h0 : 0 ≤ pwm_id) (h1 : pwm_id ≤ 17) (x i : Nat) (hx : x ≠ 0x40460210)
    (hb : x = pwm_id_to_regbase pwm_id + 0xD4 → i ≠ (pwm_id % 6).toNat) :
    (readl (pwm_init pwm_id div invert s).2 x).testBit i = (readl s x).testBit i := by
  obtain ⟨c, hc, hch, hmod⟩ := pwm_channel_valid pwm_id h0 h1
  rw [← hmod, Int.toNat_ofNat] at hb
  have hc32 : c < 32 := by omega
  by_cases hx1 : x = pwm_id_to_regbase pwm_id + 0xD4
  · have hi := hb hx1
    rw [hx1, readl, pwm_init_polctl, hch]
    split_ifs <;> by_cases h32 : i < 32 <;>
      simp [testBit_u32, testBit_readl, Nat.testBit_and, Nat.testBit_or, testBit_not32,
        testBit_shl32_one _ _ hc32, hi, h32]
  · rw [readl, pwm_init_frame _ _ _ _ x hx hx1, readl]

/-- The register bits `pwm_enable` may change: bit `c` of POEN and CNTEN and
bits `2c`, `2c+1` of WGCTL0 and WGCTL1; every other bit of every register is
kept. -/
theorem pwm_enable_bit_frame (pwm_id : Int) (s : Regs)
    (h0 : 0 ≤ pwm_id) (h1 : pwm_id ≤ 17) (x i : Nat)
    (hpo : x = pwm_id_to_regbase pwm_id + 0xD8 → i ≠ (pwm_id % 6).toNat)
    (hcn : x = pwm_id_to_regbase pwm_id + 0x20 → i ≠ (pwm_id % 6).toNat)
    (hw0 : x = pwm_id_to_regbase pwm_id + 0xB0 →
      i ≠ 2 * (pwm_id % 6).toNat ∧ i ≠ 2 * (pwm_id % 6).toNat + 1)
    (hw1 : x = pwm_id_to_regbase pwm_id + 0xB4 →
      i ≠ 2 * (pwm_id % 6).toNat ∧ i ≠ 2 * (pwm_id % 6).toNat + 1) :
    (readl (pwm_enable pwm_id s).2 x).testBit i = (readl s x).testBit i := by
  obtain ⟨c, hc, hch, hmod⟩ := pwm_channel_valid pwm_id h0 h1
  rw [← hmod, Int.toNat_ofNat] at hpo hcn hw0 hw1
  have hc32 : c < 32 := by omega
  by_cases a0 : x = pwm_id_to_regbase pwm_id + 0xB0
  · obtain ⟨hi, hj⟩ := hw0 a0
    have hm : ¬ (2 * c ≤ i ∧ i < 2 * c + 2) := by omega
    rw [a0, readl, pwm_enable_wgctl0, hch]
    by_cases h32 : i < 32 <;>
      simp [testBit_u32, testBit_readl, Nat.testBit_or, Nat.testBit_and, testBit_not32,
        testBit_shl32_mask _ _ hc, testBit_shl32_high _ _ hc, hm, hj, h32]
  by_cases a1 : x = pwm_id_to_regbase pwm_id + 0xB4
  · obtain ⟨hi, hj⟩ := hw1 a1
    have hm : ¬ (2 * c ≤ i ∧ i < 2 * c + 2) := by omega
    rw [a1, readl, pwm_enable_wgctl1, hch]
    by_cases h32 : i < 32 <;>
      simp [testBit_u32, testBit_readl, Nat.testBit_or, Nat.testBit_and, testBit_not32,
        testBit_shl32_mask _ _ hc, testBit_shl32_low _ _ hc, hm, hi, h32]
  by_cases a2 : x = pwm_id_to_regbase pwm_id + 0xD8
  · have hi := hpo a2
    rw [a2, readl, pwm_enable_poen, hch]
    by_cases h32 : i < 32 <;>
      simp [testBit_u32, testBit_readl, Nat.testBit_or, testBit_shl32_one _ _ hc32, hi, h32]
  by_cases a3 : x = pwm_id_to_regbase pwm_id + 0x20
  · have hi := hcn a3
    rw [a3, readl, pwm_enable_cnten, hch]
    by_cases h32 : i < 32 <;>
      simp [testBit_u32, testBit_readl, Nat.testBit_or, testBit_shl32_one _ _ hc32, hi, h32]
  rw [readl, pwm_enable_frame _ _ x a0 a1 a2 a3, readl]

/-- The register bits `pwm_disable` may change: bit `c` of POEN and CNTEN;
every other bit of every register is kept. -/
theorem pwm_disable_bit_frame (pwm_id : Int) (s : Regs)
    (h0 : 0 ≤ pwm_id) (h1 : pwm_id ≤ 17) (x i : Nat)
    (hpo : x = pwm_id_to_regbase pwm_id + 0xD8 → i ≠ (pwm_id % 6).toNat)
    (hcn : x = pwm_id_to_regbase pwm_id + 0x20 → i ≠ (pwm_id % 6).toNat) :
    (readl (pwm_disable pwm_id s) x).testBit i = (readl s x).testBit i := by
  obtain ⟨c, hc, hch, hmod⟩ := pwm_channel_valid pwm_id h0 h1
  rw [← hmod, Int.toNat_ofNat] at hpo hcn
  have hc32 : c < 32 := by omega
  by_cases a2 : x = pwm_id_to_regbase pwm_id + 0xD8
  · have hi := hpo a2
    rw [a2, readl, pwm_disable_poen, hch]
    by_cases h32 : i < 32 <;>
      simp [testBit_u32, testBit_readl, Nat.testBit_and, testBit_not32,
        testBit_shl32_one _ _ hc32, hi, h32]
  by_cases a3 : x = pwm_id_to_regbase pwm_id + 0x20
  · have hi := hcn a3
    rw [a3, readl, pwm_disable_cnten, hch]
    by_cases h32 : i < 32 <;>
      simp [testBit_u32, testBit_readl, Nat.testBit_and, testBit_not32,
        testBit_shl32_one _ _ hc32, hi, h32]
  rw [readl, pwm_disable_frame _ _ x a2 a3, readl]

/-- Two register states show the same settings of a channel in 0..17 when they
agree on its period and compare registers, on bit `c` of POLCTL, POEN and
CNTEN, and on bits `2c`, `2c+1` of WGCTL0 and WGCTL1. -/
theorem channel_settings_congr (pwm_id : Int) (s t : Regs)
    (h0 : 0 ≤ pwm_id) (h1 : pwm_id ≤ 17)
    (hP : t (pwm_id_to_regbase pwm_id + 0x30 + 4 * (pwm_id % 6).toNat)
      = s (pwm_id_to_regbase pwm_id + 0x30 + 4 * (pwm_id % 6).toNat))
    (hC : t (pwm_id_to_regbase pwm_id + 0x50 + 4 * (pwm_id % 6).toNat)
      = s (pwm_id_to_regbase pwm_id + 0x50 + 4 * (pwm_id % 6).toNat))
    (hbit : ∀ x : Nat, (x = pwm_id_to_regbase pwm_id + 0xD4 ∨
        x = pwm_id_to_regbase pwm_id + 0xD8 ∨ x = pwm_id_to_regbase pwm_id + 0x20) →
      (readl t x).testBit (pwm_id % 6).toNat = (readl s x).testBit (pwm_id % 6).toNat)
    (hfld : ∀ x i : Nat, (x = pwm_id_to_regbase pwm_id + 0xB0 ∨
        x = pwm_id_to_regbase pwm_id + 0xB4) →
      (i = 2 * (pwm_id % 6).toNat ∨ i = 2 * (pwm_id % 6).toNat + 1) →
      (readl t x).testBit i = (readl s x).testBit i) :
    channel_settings pwm_id t = channel_settings pwm_id s := by
  obtain ⟨c, hc, hch, hmod⟩ := pwm_channel_valid pwm_id h0 h1
  rw [← hmod, Int.toNat_ofNat] at hP hC hbit hfld
  simp only [channel_settings, hch, Int.toNat_ofNat, field2_eq, REG_PWM_PERIOD0,
    REG_PWM_CMPDAT0, REG_PWM_POLCTL, REG_PWM_POEN, REG_PWM_CNTEN, REG_PWM_WGCTL0,
    REG_PWM_WGCTL1, readl, hP, hC]
  have b1 := hbit _ (Or.inl rfl)
  have b2 := hbit _ (Or.inr (Or.inl rfl))
  have b3 := hbit _ (Or.inr (Or.inr rfl))
  have f1 := hfld _ (2 * c) (Or.inl rfl) (Or.inl rfl)
  have f2 := hfld _ (2 * c + 1) (Or.inl rfl) (Or.inr rfl)
  have f3 := hfld _ (2 * c) (Or.inr rfl) (Or.inl rfl)
  have f4 := hfld _ (2 * c + 1) (Or.inr rfl) (Or.inr rfl)
  simp only [readl] at b1 b2 b3 f1 f2 f3 f4
  rw [b1, b2, b3, f1, f2, f3, f4]


/-- C19: for two distinct channel ids `a` and `b` in 0..17, any arguments and
any register state, each of `pwm_init`, `pwm_config`, `pwm_enable` and
`pwm_disable` applied to `a` leaves the settings of `b` unchanged: its period
register, its compare register, its polarity bit, its output-enable bit, its
counter-enable bit and its 2-bit fields in WGCTL0 and WGCTL1. -/
theorem channels_do_not_interfere (a b div invert duty_ns period_ns : Int) (s : Regs)
    (ha0 : 0 ≤ a) (ha1 : a ≤ 17) (hb0 : 0 ≤ b) (hb1 : b ≤ 17) (hab : a ≠ b) :
    channel_settings b (pwm_init a div invert s).2 = channel_settings b s ∧
      channel_settings b (pwm_config a duty_ns period_ns s).2 = channel_settings b s ∧
      channel_settings b (pwm_enable a s).2 = channel_settings b s ∧
      channel_settings b (pwm_disable a s) = channel_settings b s := by
  obtain ⟨ca, hca, -, hma⟩ := pwm_channel_valid a ha0 ha1
  obtain ⟨cb, hcb, -, hmb⟩ := pwm_channel_valid b hb0 hb1
  have hBa := pwm_id_to_regbase_cases a ha0 ha1
  have hBb := pwm_id_to_regbase_cases b hb0 hb1
  have hne : pwm_id_to_regbase a ≠ pwm_id_to_regbase b ∨ ca ≠ cb := by
    by_cases hB : pwm_id_to_regbase a = pwm_id_to_regbase b
    · right
      have := pwm_channel_ne_of_same_base a b ha0 ha1 hb0 hb1 hab hB
      omega
    · left
      exact hB
  have fi := pwm_init_frame a div invert s
  have bi := pwm_init_bit_frame a div invert s ha0 ha1
  have fc := pwm_config_frame a duty_ns period_ns s ha0 ha1
  have fe := pwm_enable_frame a s
  have be := pwm_enable_bit_frame a s ha0 ha1
  have fd := pwm_disable_frame a s
  have bd := pwm_disable_bit_frame a s ha0 ha1
  have kb := channel_settings_congr b s
  rw [← hma, Int.toNat_ofNat] at bi fc be bd
  rw [← hmb, Int.toNat_ofNat] at kb
  generalize pwm_id_to_regbase a = Ba at hBa hne fi bi fc fe be fd bd
  generalize pwm_id_to_regbase b = Bb at hBb hne kb
  refine ⟨?_, ?_, ?_, ?_⟩
  · refine kb _ hb0 hb1 (fi _ (by omega) (by omega)) (fi _ (by omega) (by omega)) ?_ ?_
    · intro x hx
      exact bi x cb (by omega) (by intro h; omega)
    · intro x i hx hi
      exact bi x i (by omega) (by intro h; omega)
  · refine kb _ hb0 hb1 (fc _ (by omega) (by omega) (by omega))
      (fc _ (by omega) (by omega) (by omega)) ?_ ?_
    · intro x hx
      rw [readl, fc x (by omega) (by omega) (by omega), readl]
    · intro x i hx hi
      rw [readl, fc x (by omega) (by omega) (by omega), readl]
  · refine kb _ hb0 hb1 (fe _ (by omega) (by omega) (by omega) (by omega))
      (fe _ (by omega) (by omega) (by omega) (by omega)) ?_ ?_
    · intro x hx
      exact be x cb (by intro h; omega) (by intro h; omega) (by intro h; omega)
        (by intro h; omega)
    · intro x i hx hi
      exact be x i (by intro h; omega) (by intro h; omega) (by intro h; omega)
        (by intro h; omega)
  · refine kb _ hb0 hb1 (fd _ (by omega) (by omega)) (fd _ (by omega) (by omega)) ?_ ?_
    · intro x hx
      exact bd x cb (by intro h; omega) (by intro h; omega)
    · intro x i hx hi
      exact bd x i (by intro h; omega) (by intro h; omega)

/-- C19, at the neighbouring channels 12 and 13 of one group (sub-channels 0 and
1, which share a prescale register) on an all-ones register state. -/
theorem channels_do_not_interfere_witness :
    channel_settings 13 (pwm_init 12 0 1 (fun _ => 4294967295)).2
        = channel_settings 13 (fun _ => 4294967295) ∧
      channel_settings 13 (pwm_config 12 500000000 1000000000 (fun _ => 4294967295)).2
        = channel_settings 13 (fun _ => 4294967295) ∧
      channel_settings 13 (pwm_enable 12 (fun _ => 4294967295)).2
        = channel_settings 13 (fun _ => 4294967295) ∧
      channel_settings 13 (pwm_disable 12 (fun _ => 4294967295))
        = channel_settings 13 (fun _ => 4294967295) :=
  channels_do_not_interfere 12 13 0 1 500000000 1000000000 (fun _ => 4294967295)
    (by decide) (by decide) (by decide) (by decide) (by decide)

end Ma35d1
